import Mathlib

/-!
Shallow embedding of the Monte-Carlo portfolio simulator
(`apps/web/src/components/charts/compound-simulator/simulate-monte-carlo.ts`)
of the mf-dashboard repository, together with proofs about the claims of
its specification.

Modelling conventions:
* JavaScript `number` arithmetic is modelled by exact rationals (`ℚ`).
* The transcendental float operations the source uses — `Math.exp`,
  `Math.pow (·, 1/12)` and `Math.sqrt 12` — and the stream of Gaussian
  deviates produced by `normalRandom` over the seeded `mulberry32`
  generator are abstracted into an `Oracle` record.  Theorems quantify
  over all oracles (hence cover the concrete one); where a claim needs
  numeric facts about the transcendentals, the theorem takes interval
  hypotheses that the true values satisfy.
* The four `Float64Array` buffers indexed in lockstep (`paths`,
  `costBasis`, `initialWithdrawalAmount`, `yearlyWithdrawals`) are
  modelled as one list of four-field cells.
-/

namespace MC

/-- JS `Math.round`: round half toward positive infinity. -/
def jsRound (x : ℚ) : ℤ := ⌊x + 1/2⌋

/-- Modelled from the spec: the constant `TAX_RATE` is imported from
`./constants` whose file is not among the sources; the spec states the
capital-gains tax rate as 20.315%. -/
def TAX_RATE : ℚ := 20315 / 100000

/-- `const NUM_SIMULATIONS = 5000`. -/
def NUM_SIMULATIONS : ℕ := 5000

/-- `MonteCarloInput` (source interface).  Optional fields keep their
source defaults by explicit value here: `taxFree = false`,
`monthlyWithdrawal = 0`, `annualWithdrawalRate` absent = `none`,
`expenseRatioPct = 0` (source name `expenseRatio`),
`inflationAdjustedWithdrawal = false`, `monthlyPensionIncome = 0`. -/
structure MonteCarloInput where
  initialAmount : ℚ
  monthlyContribution : ℚ
  annualReturnRate : ℚ
  volatility : ℚ
  inflationRate : ℚ
  contributionYears : ℕ
  withdrawalStartYear : ℕ
  withdrawalYears : ℕ
  taxFree : Bool
  monthlyWithdrawal : ℚ
  annualWithdrawalRate : Option ℚ
  expenseRatioPct : ℚ
  inflationAdjustedWithdrawal : Bool
  monthlyPensionIncome : ℚ
deriving DecidableEq

/-- `MonteCarloYearData` (source interface).  The two optional fields are
`Option`s; the five percentiles and the principal are stored as numbers
(rounded entries are integer-valued rationals, the year-0 entry is raw). -/
structure MonteCarloYearData where
  year : ℕ
  p10 : ℚ
  p25 : ℚ
  p50 : ℚ
  p75 : ℚ
  p90 : ℚ
  principal : ℚ
  isContributing : Bool
  isWithdrawing : Bool
  depletionRate : Option ℚ
  medianYearlyWithdrawal : Option ℚ
deriving DecidableEq

/-- `DistributionBin` (source interface). -/
structure DistributionBin where
  rangeEnd : ℚ
  count : ℕ
  isDepleted : Bool
deriving DecidableEq

/-- `MonteCarloResult` (source interface). -/
structure MonteCarloResult where
  yearlyData : List MonteCarloYearData
  failureProbability : ℚ
  depletionProbability : ℚ
  distribution : List DistributionBin
deriving DecidableEq

/-- Abstraction of the float transcendentals and of the deviate stream.
`gauss k` is the value of the `k`-th call of `normalRandom rng`, `expQ`
stands for `Math.exp`, `pow112 x` for `Math.pow x (1/12)` and `sqrt12`
for `Math.sqrt 12`. -/
structure Oracle where
  gauss : ℕ → ℚ
  expQ : ℚ → ℚ
  pow112 : ℚ → ℚ
  sqrt12 : ℚ

/-- One simulated path: `paths[i]`, `costBasis[i]`,
`initialWithdrawalAmount[i]`, `yearlyWithdrawals[i]`. -/
structure PathCell where
  v : ℚ
  b : ℚ
  iwa : ℚ
  yw : ℚ
deriving DecidableEq

/-- The mutable locals of one invocation: the path cells, the persistent
`sorted` buffer, `rateDeflationMultiplier`, `rateWithdrawalStarted`,
`currentMonthlyWithdrawal`, `totalPrincipal`, and the number of
`normalRandom` draws consumed so far. -/
structure SimState where
  cells : List PathCell
  sortedVals : List ℚ
  rdm : ℚ
  started : Bool
  cmw : ℚ
  tp : ℚ
  rng : ℕ
deriving DecidableEq

/-- `isRateMode = annualWithdrawalRate != null && annualWithdrawalRate > 0`. -/
def isRateMode (c : MonteCarloInput) : Bool :=
  match c.annualWithdrawalRate with
  | some r => decide (0 < r)
  | none => false

/-- `totalYears = Math.max(contributionYears, withdrawalStartYear + withdrawalYears)`. -/
def totalYearsOf (c : MonteCarloInput) : ℕ :=
  max c.contributionYears (c.withdrawalStartYear + c.withdrawalYears)

/-- The per-invocation constants computed at the top of `simulateMonteCarlo`
(source lines 1188-1199). -/
structure Ctx where
  taxRate : ℚ
  drift : ℚ
  msig : ℚ
  mc : ℚ
  rate : Bool
  awr : ℚ
  pension : ℚ
  mif : ℚ
  deflator : ℚ
  adj : Bool
  cy : ℕ
  wsy : ℕ
  wy : ℕ

/-- Computes the per-invocation constants exactly as the source does:
`taxRate`, `monthlyDrift`, `monthlySigma`, `isRateMode`,
`monthlyInflationFactor` and `monthlyNominalDeflator`. -/
def mkCtx (O : Oracle) (c : MonteCarloInput) : Ctx :=
  let mu := (c.annualReturnRate - c.expenseRatioPct) / 100
  let sigma := c.volatility / 100
  let ri := c.inflationRate / 100
  { taxRate := if c.taxFree then 0 else TAX_RATE
    drift := (mu - ri - sigma * sigma / 2) / 12
    msig := sigma / O.sqrt12
    mc := c.monthlyContribution
    rate := isRateMode c
    awr := c.annualWithdrawalRate.getD 0
    pension := c.monthlyPensionIncome
    mif := if isRateMode c = false ∧ c.inflationAdjustedWithdrawal = true then
        O.pow112 (1 + ri) else 1
    deflator := if isRateMode c = true ∧ 0 < ri then 1 / O.pow112 (1 + ri) else 1
    adj := c.inflationAdjustedWithdrawal
    cy := c.contributionYears
    wsy := c.withdrawalStartYear
    wy := c.withdrawalYears }

/-- `const netWithdrawal = Math.max(baseWithdrawal - monthlyPensionIncome, 0)`. -/
def withdrawalNet (base pension : ℚ) : ℚ := max (base - pension) 0

/-- Source lines 1274-1279 for a pre-withdrawal value `v` and cost basis
`b`: gain fraction, tax on the withdrawal, proportional basis reduction,
value update and the subsequent floor at 0.  Returns (new value, new basis). -/
def withdrawalStep (taxRate net v b : ℚ) : ℚ × ℚ :=
  let gainFrac := if b < v then (v - b) / v else 0
  let taxOnW := net * gainFrac * taxRate
  let wFrac := min (net / v) 1
  (max (v - net - taxOnW) 0, b * (1 - wFrac))

/-- The body of the inner path loop (source lines 1253-1280) for one path:
lognormal growth with the `k`-th Gaussian deviate, contribution, and — when
withdrawing and the value is positive — the withdrawal of the mode-dependent
base amount. -/
def pathStep (O : Oracle) (cx : Ctx) (contrib withdraw : Bool) (rdm cmw : ℚ)
    (k : ℕ) (p : PathCell) : PathCell :=
  let g := O.expQ (cx.drift + cx.msig * O.gauss k)
  let v2 := if contrib then p.v * g + cx.mc else p.v * g
  let b2 := if contrib then p.b + cx.mc else p.b
  if withdraw = true ∧ 0 < v2 then
    let iwa2 := if cx.rate then
        (if p.iwa = 0 then v2 * cx.awr / 100 / 12 else p.iwa) else p.iwa
    let base := if cx.rate then iwa2 * rdm else cmw
    let net := withdrawalNet base cx.pension
    let yw2 := if cx.rate then p.yw + net else p.yw
    let vb := withdrawalStep cx.taxRate net v2 b2
    ⟨vb.1, vb.2, iwa2, yw2⟩
  else
    ⟨v2, b2, p.iwa, p.yw⟩

/-- Runs a per-path update over the cell list, consuming one deviate index
per path in order. -/
def stepCells (f : ℕ → PathCell → PathCell) : ℕ → List PathCell → List PathCell
  | _, [] => []
  | k, p :: ps => f k p :: stepCells f (k + 1) ps

/-- One month of the simulation (source lines 1240-1285): the pre-loop
updates of `currentMonthlyWithdrawal` and of the rate-mode deflation
multiplier, the path loop, and the monthly principal accumulation. -/
def monthStep (O : Oracle) (cx : Ctx) (contrib withdraw : Bool) (s : SimState) : SimState :=
  let cmw2 := if withdraw = true ∧ cx.rate = false ∧ cx.adj = true then s.cmw * cx.mif else s.cmw
  let rdm2 := if withdraw = true ∧ cx.rate = true then
      (if s.started then s.rdm * cx.deflator else s.rdm) else s.rdm
  let started2 := if withdraw = true ∧ cx.rate = true then true else s.started
  ⟨stepCells (pathStep O cx contrib withdraw rdm2 cmw2) s.rng s.cells,
   s.sortedVals, rdm2, started2, cmw2,
   (if contrib then s.tp + cx.mc else s.tp),
   s.rng + s.cells.length⟩

/-- Ascending numeric sort (`Float64Array.prototype.sort`).  Any correct
ascending sort yields the same list of values; insertion sort is used. -/
def sortQ (l : List ℚ) : List ℚ := List.insertionSort (· ≤ ·) l

/-- `Math.floor(n * q)` for the percentile indices. -/
def pctIndex (n : ℕ) (q : ℚ) : ℕ := (⌊(n : ℚ) * q⌋).toNat

/-- `if (yearlyWithdrawals) yearlyWithdrawals.fill(0)` at the top of the
year loop. -/
def yearInit (cx : Ctx) (s : SimState) : SimState :=
  if cx.rate then
    ⟨s.cells.map (fun p => ⟨p.v, p.b, p.iwa, 0⟩),
     s.sortedVals, s.rdm, s.started, s.cmw, s.tp, s.rng⟩
  else s

/-- `isContributing = year <= contributionYears`. -/
def contribFlag (cx : Ctx) (y : ℕ) : Bool := decide (y ≤ cx.cy)

/-- `isWithdrawing = year > withdrawalStartYear && year <= withdrawalStartYear + withdrawalYears`. -/
def withdrawFlag (cx : Ctx) (y : ℕ) : Bool := decide (cx.wsy < y ∧ y ≤ cx.wsy + cx.wy)

/-- One iteration of the year loop up to and including
`sorted.set(paths); sorted.sort()`. -/
def yearStep (O : Oracle) (cx : Ctx) (y : ℕ) (s : SimState) : SimState :=
  let s12 := (monthStep O cx (contribFlag cx y) (withdrawFlag cx y))^[12] (yearInit cx s)
  ⟨s12.cells, sortQ (s12.cells.map PathCell.v), s12.rdm, s12.started, s12.cmw, s12.tp, s12.rng⟩

/-- The `yearlyData` entry pushed at the end of year `y` (source lines
1291-1318), computed from the post-year state. -/
def mkYearData (n : ℕ) (cx : Ctx) (y : ℕ) (s : SimState) : MonteCarloYearData :=
  let sorted := s.sortedVals
  let p50v := sorted.getD (pctIndex n (1/2)) 0
  ⟨y,
   (jsRound (sorted.getD (pctIndex n (1/10)) 0) : ℚ),
   (jsRound (sorted.getD (pctIndex n (1/4)) 0) : ℚ),
   (jsRound p50v : ℚ),
   (jsRound (sorted.getD (pctIndex n (3/4)) 0) : ℚ),
   (jsRound (sorted.getD (pctIndex n (9/10)) 0) : ℚ),
   (jsRound (min s.tp p50v) : ℚ),
   contribFlag cx y,
   withdrawFlag cx y,
   (if withdrawFlag cx y then
     some (((s.cells.map PathCell.v).countP (fun v => decide (v ≤ 0)) : ℚ) / (n : ℚ))
   else none),
   (if withdrawFlag cx y = true ∧ cx.rate = true then
     some ((jsRound ((sortQ (s.cells.map PathCell.yw)).getD (pctIndex n (1/2)) 0) : ℚ))
   else none)⟩

/-- The year loop from year `y`, running `k` years: returns the final
state and the produced snapshots in order. -/
def runYears (O : Oracle) (cx : Ctx) (n : ℕ) :
    ℕ → ℕ → SimState → SimState × List MonteCarloYearData
  | _, 0, s => (s, [])
  | y, k + 1, s =>
    let s1 := yearStep O cx y s
    let r := runYears O cx n (y + 1) k s1
    (r.1, mkYearData n cx y s1 :: r.2)

/-- The year-0 entry pushed before the loop (source lines 1208-1218). -/
def year0Data (c : MonteCarloInput) : MonteCarloYearData :=
  ⟨0, c.initialAmount, c.initialAmount, c.initialAmount, c.initialAmount, c.initialAmount,
   c.initialAmount, false, false, none, none⟩

/-- The initial buffers: `paths` and `costBasis` filled with
`initialAmount`, `initialWithdrawalAmount` and `yearlyWithdrawals` zero,
`sorted` a zero `Float64Array`, multiplier 1, lock-in not started,
`currentMonthlyWithdrawal = monthlyWithdrawal`, `totalPrincipal = initialAmount`. -/
def initState (n : ℕ) (c : MonteCarloInput) : SimState :=
  ⟨List.replicate n ⟨c.initialAmount, c.initialAmount, 0, 0⟩,
   List.replicate n 0, 1, false, c.monthlyWithdrawal, c.initialAmount, 0⟩

/-- `Math.min(Math.floor(v / binWidth), neededBins - 1)`. -/
def binIdx (bw : ℚ) (needed : ℕ) (v : ℚ) : ℕ := min (⌊v / bw⌋).toNat (needed - 1)

/-- The terminal histogram (source lines 1330-1362), built from the
persistent sorted buffer: a depleted bin for values `≤ 0` when nonempty,
then up to `10 + 5` equal-width bins over the positive values, the counts
expressed as the number of positive values falling in each bin index. -/
def distributionOf (n : ℕ) (sorted : List ℚ) : List DistributionBin :=
  let p90Val := sorted.getD (pctIndex n (9/10)) 0
  let maxVal := sorted.getD (n - 1) 0
  let depCnt := sorted.countP (fun v => decide (v ≤ 0))
  let depBins := if 0 < depCnt then [⟨0, depCnt, true⟩] else ([] : List DistributionBin)
  let posBins := if 0 < maxVal then
      let bw := max p90Val 1 / 10
      let needed := min (⌈maxVal / bw⌉).toNat 15
      (List.range needed).map (fun (bi : ℕ) =>
        (⟨(jsRound (((bi : ℚ) + 1) * bw) : ℚ),
          sorted.countP (fun v => decide (0 < v ∧ binIdx bw needed v = bi)),
          false⟩ : DistributionBin))
    else []
  depBins ++ posBins

/-- The full simulation `simulateMonteCarlo` over a given oracle. -/
def simulateMonteCarlo (O : Oracle) (c : MonteCarloInput) : MonteCarloResult :=
  let cx := mkCtx O c
  let n := NUM_SIMULATIONS
  let r := runYears O cx n 1 (totalYearsOf c) (initState n c)
  let ds := year0Data c :: r.2
  ⟨ds,
   ((r.1.cells.map PathCell.v).countP (fun v => decide (v < r.1.tp)) : ℚ) / (n : ℚ),
   ((ds.getLast?.bind MonteCarloYearData.depletionRate).getD 0),
   distributionOf n r.1.sortedVals⟩

/-- The state reached inside `simulateMonteCarlo` after `y - 1` full years
followed by `m` monthly steps of year `y`: every intermediate point of the
run is of this shape. -/
def stateDuring (O : Oracle) (c : MonteCarloInput) (y m : ℕ) : SimState :=
  let cx := mkCtx O c
  (monthStep O cx (contribFlag cx y) (withdrawFlag cx y))^[m]
    (yearInit cx (runYears O cx NUM_SIMULATIONS 1 (y - 1) (initState NUM_SIMULATIONS c)).1)

/-- Out-of-range default snapshot used with `List.getD` in statements. -/
def yd0 : MonteCarloYearData := ⟨0, 0, 0, 0, 0, 0, 0, false, false, none, none⟩

/-- Out-of-range default cell used with `List.getD` in statements. -/
def cell0 : PathCell := ⟨0, 0, 0, 0⟩

/-- A concrete rational oracle: `expQ` and `pow112` constantly 1 (the exact
values of `Math.exp 0` and `Math.pow x (1/12)` at 1), `gauss` constantly 0.
Used for runs whose growth factor is irrelevant or whose drift is 0. -/
def oracleOne : Oracle := ⟨fun _ => 0, fun _ => 1, fun _ => 1, 7/2⟩

/-- A concrete rational oracle with `expQ` constantly `599/600`, a close
rational approximation of `Math.exp (-1/600)` (the monthly growth factor of
a run with annual return 0%, inflation 2%, volatility 0). -/
def oracleLoss : Oracle := ⟨fun _ => 0, fun _ => 599/600, fun _ => 1, 7/2⟩

/-- A concrete rational oracle whose `expQ` value `100166/100000` lies in
the proven interval around `Math.exp (1/600) = 1.0016680...` and whose
`pow112` value `100246/100000` lies in the proven interval around
`Math.pow 1.03 (1/12) = 1.0024662...`. -/
def oracleD : Oracle := ⟨fun _ => 0, fun _ => 100166/100000, fun _ => 100246/100000, 7/2⟩

/-- Scenario D of the test suite (rate mode, volatility 0, inflation 3%,
withdrawal of 4% p.a. for 20 years starting immediately). -/
def cfgD : MonteCarloInput :=
  ⟨10000000, 0, 5, 0, 3, 0, 0, 20, false, 0, some 4, 0, false, 0⟩

/-- A degenerate in-domain configuration: no initial amount and no
contributions, one immediate withdrawal year. -/
def cfgZeroPrincipal : MonteCarloInput :=
  ⟨0, 0, 0, 0, 0, 0, 0, 1, false, 0, none, 0, false, 0⟩

/-- Both withdrawal-mode fields populated: `monthlyWithdrawal = 100000` and
`annualWithdrawalRate = some 0`; zero drift, zero volatility, tax free. -/
def cfgBothA : MonteCarloInput :=
  ⟨1000000, 0, 0, 0, 0, 0, 0, 1, true, 100000, some 0, 0, false, 0⟩

/-- `cfgBothA` with the monthly withdrawal set to 0 instead. -/
def cfgBothB : MonteCarloInput :=
  ⟨1000000, 0, 0, 0, 0, 0, 0, 1, true, 0, some 0, 0, false, 0⟩

/-- A configuration with negative real drift: annual return 0%, inflation
2%, volatility 0, one contribution-only year. -/
def cfgLoss : MonteCarloInput :=
  ⟨1000000, 0, 0, 0, 2, 1, 0, 0, false, 0, none, 0, false, 0⟩

/-- The rate-mode monthly deflator of `cfgD`: `1 / Math.pow 1.03 (1/12)`. -/
def defD (O : Oracle) : ℚ := 1 / O.pow112 (103/100)

/-- The per-path locked-in monthly withdrawal of `cfgD`:
`(initialAmount * expQ (1/600)) * 4 / 100 / 12`. -/
def lockD (O : Oracle) : ℚ := 10000000 * O.expQ (1/600) * 4 / 100 / 12

/-- Sum of the twelve monthly deflation factors inside one year of `cfgD`. -/
def geomD (O : Oracle) : ℚ := ∑ i ∈ Finset.range 12, defD O ^ i

/-- The exact yearly withdrawal total of year `y` (1-based) of `cfgD`. -/
def totD (O : Oracle) (y : ℕ) : ℚ := lockD O * defD O ^ (12 * (y - 1)) * geomD O

/-- Shape of the `cfgD` run state before processing global month `m ≥ 1`:
all 5000 cells share one value, basis, the locked withdrawal and the
yearly total `t`; the value is bounded below by `9900000 * d^m`; the
deflation multiplier is `d^(m-1)` and the lock-in has started. -/
def DState (O : Oracle) (m : ℕ) (t : ℚ) (s : SimState) : Prop :=
  ∃ v b, s.cells = List.replicate 5000 ⟨v, b, lockD O, t⟩ ∧
    9900000 * defD O ^ m ≤ v ∧ 0 ≤ b ∧
    s.rdm = defD O ^ (m - 1) ∧ s.started = true ∧ s.cmw = 0 ∧ s.tp = 10000000

/-- Structural invariant carried through the run: the cell list has length
`n` and the persistent sorted buffer is a sorted length-`n` list. -/
def StInv (n : ℕ) (s : SimState) : Prop :=
  s.cells.length = n ∧ s.sortedVals.length = n ∧ List.Sorted (· ≤ ·) s.sortedVals

/-- Per-cell invariant for the cost-basis claim: nonnegative value and
basis below value. -/
def cellOK (p : PathCell) : Prop := 0 ≤ p.v ∧ p.b ≤ p.v

/-- The same configuration with only the `monthlyWithdrawal` field replaced. -/
def setMW (c : MonteCarloInput) (w : ℚ) : MonteCarloInput :=
  ⟨c.initialAmount, c.monthlyContribution, c.annualReturnRate, c.volatility,
   c.inflationRate, c.contributionYears, c.withdrawalStartYear, c.withdrawalYears,
   c.taxFree, w, c.annualWithdrawalRate, c.expenseRatioPct,
   c.inflationAdjustedWithdrawal, c.monthlyPensionIncome⟩

/-- Two states that agree on everything except possibly
`currentMonthlyWithdrawal`. -/
def eqButCmw (s t : SimState) : Prop :=
  s.cells = t.cells ∧ s.sortedVals = t.sortedVals ∧ s.rdm = t.rdm ∧
  s.started = t.started ∧ s.tp = t.tp ∧ s.rng = t.rng

theorem stepCells_length (f : ℕ → PathCell → PathCell) :
    ∀ (k : ℕ) (l : List PathCell), (stepCells f k l).length = l.length := by
  intro k l
  induction l generalizing k with
  | nil => rfl
  | cons p ps ih => simp [stepCells, ih]

theorem stepCells_const (f : ℕ → PathCell → PathCell) (hf : ∀ k p, f k p = f 0 p) :
    ∀ (m k : ℕ) (p : PathCell),
      stepCells f k (List.replicate m p) = List.replicate m (f 0 p) := by
  intro m
  induction m with
  | zero => intro k p; rfl
  | succ m ih =>
    intro k p
    simp only [List.replicate_succ, stepCells]
    rw [ih (k + 1) p, hf k p]

theorem stepCells_congr {f g : ℕ → PathCell → PathCell} (h : ∀ k p, f k p = g k p) :
    ∀ (k : ℕ) (l : List PathCell), stepCells f k l = stepCells g k l := by
  intro k l
  induction l generalizing k with
  | nil => rfl
  | cons p ps ih => simp only [stepCells]; rw [h, ih]

theorem stepCells_forall {P : PathCell → Prop} {f : ℕ → PathCell → PathCell}
    (hf : ∀ k p, P p → P (f k p)) :
    ∀ {k : ℕ} {l : List PathCell}, (∀ p ∈ l, P p) → ∀ p ∈ stepCells f k l, P p := by
  intro k l
  induction l generalizing k with
  | nil => intro _ p hp; cases hp
  | cons a t ih =>
    intro hl p hp
    rw [stepCells] at hp
    rcases List.mem_cons.mp hp with rfl | hp
    · exact hf _ _ (hl a (List.mem_cons_self a t))
    · exact ih (fun q hq => hl q (List.mem_cons_of_mem a hq)) p hp

theorem sortQ_sorted (l : List ℚ) : List.Sorted (· ≤ ·) (sortQ l) :=
  List.sorted_insertionSort _ l

theorem sortQ_length (l : List ℚ) : (sortQ l).length = l.length :=
  (List.perm_insertionSort _ l).length_eq

theorem sortQ_replicate (n : ℕ) (v : ℚ) :
    sortQ (List.replicate n v) = List.replicate n v :=
  List.Sorted.insertionSort_eq (List.pairwise_replicate.mpr (Or.inr le_rfl))

theorem getD_replicate {α : Type} {n i : ℕ} (v d : α) (h : i < n) :
    (List.replicate n v).getD i d = v := by
  have h2 : i < (List.replicate n v).length := by simpa using h
  rw [List.getD_eq_getElem _ _ h2]
  exact List.getElem_replicate _ _

theorem countP_replicate {α : Type} (p : α → Bool) (n : ℕ) (v : α) :
    (List.replicate n v).countP p = if p v then n else 0 := by
  induction n with
  | zero => simp
  | succ n ih =>
    rw [List.replicate_succ, List.countP_cons, ih]
    cases h : p v <;> simp [h]

theorem sorted_getD_mono {l : List ℚ} (h : List.Sorted (· ≤ ·) l) {i j : ℕ}
    (hij : i ≤ j) (hj : j < l.length) : l.getD i 0 ≤ l.getD j 0 := by
  rw [List.getD_eq_getElem _ _ (lt_of_le_of_lt hij hj), List.getD_eq_getElem _ _ hj]
  rcases Nat.eq_or_lt_of_le hij with rfl | hlt
  · exact le_refl _
  · exact List.pairwise_iff_getElem.mp h i j _ hj hlt

theorem sorted_le_getLast {l : List ℚ} (h : List.Sorted (· ≤ ·) l) {x : ℚ}
    (hx : x ∈ l) : x ≤ l.getD (l.length - 1) 0 := by
  obtain ⟨i, hi, hix⟩ := List.getElem_of_mem hx
  have h1 : i ≤ l.length - 1 := by omega
  have h2 : l.length - 1 < l.length := by omega
  have := sorted_getD_mono h h1 h2
  rwa [List.getD_eq_getElem _ _ (lt_of_le_of_lt h1 h2), hix] at this

theorem jsRound_mono {a b : ℚ} (h : a ≤ b) : jsRound a ≤ jsRound b :=
  Int.floor_le_floor (by linarith)

theorem jsRound_lt {a b : ℚ} (h : a + 1 ≤ b) : jsRound a < jsRound b := by
  unfold jsRound
  have h1 : (⌊a + 1/2⌋ : ℤ) + 1 = ⌊a + 1/2 + 1⌋ := (Int.floor_add_one _).symm
  have h2 : (⌊a + 1/2 + 1⌋ : ℤ) ≤ ⌊b + 1/2⌋ := Int.floor_le_floor (by linarith)
  omega

theorem countP_pos_eq {l : List ℚ} :
    l.countP (fun v => decide (v ≤ 0)) + l.countP (fun v => decide (0 < v)) = l.length := by
  induction l with
  | nil => rfl
  | cons a t ih =>
    simp only [List.countP_cons, List.length_cons]
    by_cases ha : a ≤ 0
    · simp [ha, not_lt.mpr ha]
      omega
    · simp [ha, lt_of_not_le ha]
      omega

theorem countP_binSum {α : Type} (l : List α) (P : α → Prop) [DecidablePred P]
    (f : α → ℕ) (B : ℕ) (hf : ∀ v, P v → f v < B) :
    ∑ bi ∈ Finset.range B, l.countP (fun v => decide (P v ∧ f v = bi)) =
      l.countP (fun v => decide (P v)) := by
  induction l with
  | nil => simp
  | cons a t ih =>
    simp only [List.countP_cons]
    rw [Finset.sum_add_distrib, ih]
    congr 1
    by_cases hPa : P a
    · have : ∀ bi ∈ Finset.range B,
          (if decide (P a ∧ f a = bi) = true then 1 else 0) =
            if f a = bi then 1 else 0 := by
        intro bi _
        by_cases hb : f a = bi <;> simp [hPa, hb]
      rw [Finset.sum_congr rfl this, Finset.sum_ite_eq (Finset.range B) (f a) (fun _ => 1)]
      simp [Finset.mem_range.mpr (hf a hPa), hPa]
    · have : ∀ bi ∈ Finset.range B,
          (if decide (P a ∧ f a = bi) = true then 1 else 0) = 0 := by
        intro bi _; simp [hPa]
      rw [Finset.sum_congr rfl this]
      simp [hPa]

theorem getLast?_cons_ne {α : Type} (a : α) {l : List α} (h : l ≠ []) :
    (a :: l).getLast? = l.getLast? := by
  cases l with
  | nil => exact absurd rfl h
  | cons b t => simp [List.getLast?]

theorem monthStep_cells_length (O : Oracle) (cx : Ctx) (cb wb : Bool) (s : SimState) :
    (monthStep O cx cb wb s).cells.length = s.cells.length :=
  stepCells_length _ _ _

theorem monthStep_sortedVals (O : Oracle) (cx : Ctx) (cb wb : Bool) (s : SimState) :
    (monthStep O cx cb wb s).sortedVals = s.sortedVals := rfl

theorem monthStep_tp (O : Oracle) (cx : Ctx) (cb wb : Bool) (s : SimState) :
    (monthStep O cx cb wb s).tp = if cb then s.tp + cx.mc else s.tp := rfl

theorem iterate_monthStep_cells_length (O : Oracle) (cx : Ctx) (cb wb : Bool)
    (j : ℕ) (s : SimState) :
    ((monthStep O cx cb wb)^[j] s).cells.length = s.cells.length := by
  induction j with
  | zero => rfl
  | succ j ih => rw [Function.iterate_succ_apply', monthStep_cells_length, ih]

theorem iterate_monthStep_sortedVals (O : Oracle) (cx : Ctx) (cb wb : Bool)
    (j : ℕ) (s : SimState) :
    ((monthStep O cx cb wb)^[j] s).sortedVals = s.sortedVals := by
  induction j with
  | zero => rfl
  | succ j ih => rw [Function.iterate_succ_apply', monthStep_sortedVals, ih]

theorem iterate_monthStep_tp (O : Oracle) (cx : Ctx) (cb wb : Bool)
    (j : ℕ) (s : SimState) :
    ((monthStep O cx cb wb)^[j] s).tp = s.tp + (if cb then (j : ℚ) * cx.mc else 0) := by
  induction j with
  | zero => simp
  | succ j ih =>
    rw [Function.iterate_succ_apply', monthStep_tp, ih]
    cases cb <;> simp <;> push_cast <;> ring

theorem yearInit_cells_length (cx : Ctx) (s : SimState) :
    (yearInit cx s).cells.length = s.cells.length := by
  unfold yearInit
  cases cx.rate <;> simp

theorem yearInit_sortedVals (cx : Ctx) (s : SimState) :
    (yearInit cx s).sortedVals = s.sortedVals := by
  unfold yearInit
  cases cx.rate <;> simp

theorem yearInit_tp (cx : Ctx) (s : SimState) : (yearInit cx s).tp = s.tp := by
  unfold yearInit
  cases cx.rate <;> simp

theorem yearStep_cells_length (O : Oracle) (cx : Ctx) (y : ℕ) (s : SimState) :
    (yearStep O cx y s).cells.length = s.cells.length := by
  unfold yearStep
  rw [iterate_monthStep_cells_length, yearInit_cells_length]

theorem yearStep_sortedVals (O : Oracle) (cx : Ctx) (y : ℕ) (s : SimState) :
    (yearStep O cx y s).sortedVals = sortQ ((yearStep O cx y s).cells.map PathCell.v) := rfl

theorem yearStep_tp (O : Oracle) (cx : Ctx) (y : ℕ) (s : SimState) :
    (yearStep O cx y s).tp = s.tp + (if y ≤ cx.cy then 12 * cx.mc else 0) := by
  unfold yearStep
  rw [iterate_monthStep_tp, yearInit_tp]
  unfold contribFlag
  by_cases h : y ≤ cx.cy <;> simp [h] <;> ring

theorem yearStep_inv {n : ℕ} (O : Oracle) (cx : Ctx) (y : ℕ) {s : SimState}
    (h : StInv n s) : StInv n (yearStep O cx y s) := by
  obtain ⟨h1, _, _⟩ := h
  refine ⟨by rw [yearStep_cells_length, h1], ?_, ?_⟩
  · rw [yearStep_sortedVals, sortQ_length, List.length_map, yearStep_cells_length, h1]
  · rw [yearStep_sortedVals]; exact sortQ_sorted _

theorem runYears_length (O : Oracle) (cx : Ctx) (n : ℕ) :
    ∀ (k y : ℕ) (s : SimState), (runYears O cx n y k s).2.length = k := by
  intro k
  induction k with
  | zero => intro y s; rfl
  | succ k ih => intro y s; simp [runYears, ih]

theorem runYears_inv {n : ℕ} (O : Oracle) (cx : Ctx) :
    ∀ (k y : ℕ) {s : SimState}, StInv n s → StInv n (runYears O cx n y k s).1 := by
  intro k
  induction k with
  | zero => intro y s h; exact h
  | succ k ih => intro y s h; exact ih (y + 1) (yearStep_inv O cx y h)

theorem runYears_snap {n : ℕ} (O : Oracle) (cx : Ctx) :
    ∀ (k y j : ℕ) {s : SimState}, StInv n s → j < k →
      ∃ s1, StInv n s1 ∧ s1.sortedVals = sortQ (s1.cells.map PathCell.v) ∧
        (runYears O cx n y k s).2.getD j yd0 = mkYearData n cx (y + j) s1 := by
  intro k
  induction k with
  | zero => intro y j s _ hj; omega
  | succ k ih =>
    intro y j s hs hj
    cases j with
    | zero =>
      refine ⟨yearStep O cx y s, yearStep_inv O cx y hs, yearStep_sortedVals O cx y s, ?_⟩
      simp [runYears]
    | succ j =>
      obtain ⟨s1, h1, h2, h3⟩ := ih (y + 1) j (yearStep_inv O cx y hs) (by omega)
      refine ⟨s1, h1, h2, ?_⟩
      rw [show y + (j + 1) = y + 1 + j by omega, ← h3]
      simp [runYears]

theorem runYears_getLast (O : Oracle) (cx : Ctx) (n : ℕ) :
    ∀ (k y : ℕ) (s : SimState), 0 < k →
      (runYears O cx n y k s).2.getLast? =
        some (mkYearData n cx (y + k - 1) (runYears O cx n y k s).1) := by
  intro k
  induction k with
  | zero => intro y s h; omega
  | succ k ih =>
    intro y s _
    cases Nat.eq_zero_or_pos k with
    | inl hk =>
      subst hk
      simp [runYears]
    | inr hk =>
      have h2 : (runYears O cx n (y + 1) k (yearStep O cx y s)).2 ≠ [] := by
        intro hnil
        have := runYears_length O cx n k (y + 1) (yearStep O cx y s)
        rw [hnil] at this
        simp at this
        omega
      have h3 := ih (y + 1) (yearStep O cx y s) hk
      show ((runYears O cx n y (k+1) s).2).getLast? = _
      simp only [runYears]
      rw [getLast?_cons_ne _ h2, h3]
      congr 2
      omega

theorem countP_range'_cy (cy T : ℕ) (h : cy ≤ T) :
    (List.range' 1 T).countP (fun j => decide (j ≤ cy)) = cy := by
  induction T with
  | zero =>
    simp
    omega
  | succ T ih =>
    rw [show T + 1 = T + 1 from rfl, List.range'_concat, List.countP_append]
    by_cases hc : cy ≤ T
    · rw [ih hc]
      have hx : ¬ (1 + 1 * T ≤ cy) := by omega
      simp [hx]
      omega
    · have hcy : cy = T + 1 := by omega
      have hall : (List.range' 1 T).countP (fun j => decide (j ≤ cy)) =
          (List.range' 1 T).length := by
        apply List.countP_eq_length.mpr
        intro x hx
        have := List.mem_range'_1.mp hx
        simp
        omega
      have hlen : (List.range' 1 T).length = T := by simp
      rw [hall, hlen, List.countP_cons, List.countP_nil]
      have hy2 : decide (1 + 1 * T ≤ cy) = true := decide_eq_true (by omega)
      rw [hy2]
      simp
      omega

theorem runYears_tp (O : Oracle) (cx : Ctx) (n : ℕ) :
    ∀ (k y : ℕ) (s : SimState),
      (runYears O cx n y k s).1.tp =
        s.tp + 12 * cx.mc *
          (((List.range' y k).countP (fun j => decide (j ≤ cx.cy))) : ℚ) := by
  intro k
  induction k with
  | zero => intro y s; simp [runYears]
  | succ k ih =>
    intro y s
    show (runYears O cx n (y + 1) k (yearStep O cx y s)).1.tp = _
    rw [ih (y + 1) (yearStep O cx y s), yearStep_tp, List.range'_succ, List.countP_cons]
    by_cases h : y ≤ cx.cy <;> simp [h] <;> push_cast <;> ring

theorem mkCtx_cy (O : Oracle) (c : MonteCarloInput) :
    (mkCtx O c).cy = c.contributionYears := rfl

theorem mkCtx_wsy (O : Oracle) (c : MonteCarloInput) :
    (mkCtx O c).wsy = c.withdrawalStartYear := rfl

theorem mkCtx_wy (O : Oracle) (c : MonteCarloInput) :
    (mkCtx O c).wy = c.withdrawalYears := rfl

theorem mkCtx_rate (O : Oracle) (c : MonteCarloInput) :
    (mkCtx O c).rate = isRateMode c := rfl

theorem initState_inv (n : ℕ) (c : MonteCarloInput) : StInv n (initState n c) := by
  refine ⟨by simp [initState], by simp [initState], ?_⟩
  exact List.pairwise_replicate.mpr (Or.inr le_rfl)

theorem sim_yearlyData (O : Oracle) (c : MonteCarloInput) :
    (simulateMonteCarlo O c).yearlyData =
      year0Data c ::
        (runYears O (mkCtx O c) NUM_SIMULATIONS 1 (totalYearsOf c)
          (initState NUM_SIMULATIONS c)).2 := rfl

theorem sim_failure (O : Oracle) (c : MonteCarloInput) :
    (simulateMonteCarlo O c).failureProbability =
      (((runYears O (mkCtx O c) NUM_SIMULATIONS 1 (totalYearsOf c)
          (initState NUM_SIMULATIONS c)).1.cells.map PathCell.v).countP
        (fun v => decide (v < (runYears O (mkCtx O c) NUM_SIMULATIONS 1 (totalYearsOf c)
          (initState NUM_SIMULATIONS c)).1.tp)) : ℚ) / (NUM_SIMULATIONS : ℚ) := rfl

theorem sim_depletion (O : Oracle) (c : MonteCarloInput) :
    (simulateMonteCarlo O c).depletionProbability =
      (((year0Data c ::
          (runYears O (mkCtx O c) NUM_SIMULATIONS 1 (totalYearsOf c)
            (initState NUM_SIMULATIONS c)).2).getLast?.bind
        MonteCarloYearData.depletionRate).getD 0) := rfl

theorem sim_distribution (O : Oracle) (c : MonteCarloInput) :
    (simulateMonteCarlo O c).distribution =
      distributionOf NUM_SIMULATIONS
        (runYears O (mkCtx O c) NUM_SIMULATIONS 1 (totalYearsOf c)
          (initState NUM_SIMULATIONS c)).1.sortedVals := rfl

theorem sum_map_range_eq (B : ℕ) (g : ℕ → ℕ) :
    ((List.range B).map g).sum = ∑ bi ∈ Finset.range B, g bi := by
  induction B with
  | zero => rfl
  | succ B ih =>
    rw [List.range_succ, List.map_append, List.sum_append, Finset.sum_range_succ, ih]
    simp

theorem distributionOf_sum {n : ℕ} (hn : 0 < n) {l : List ℚ}
    (hs : List.Sorted (· ≤ ·) l) (hl : l.length = n) :
    ((distributionOf n l).map DistributionBin.count).sum = n := by
  have hlast : ∀ x ∈ l, x ≤ l.getD (n - 1) 0 := by
    intro x hx
    have := sorted_le_getLast hs hx
    rwa [hl] at this
  dsimp only [distributionOf]
  rw [List.map_append, List.sum_append]
  by_cases hmax : 0 < l.getD (n - 1) 0
  · rw [if_pos hmax]
    have hbw : (0:ℚ) < max (l.getD (pctIndex n (9/10)) 0) 1 / 10 := by
      have h1 : (1:ℚ) ≤ max (l.getD (pctIndex n (9/10)) 0) 1 := le_max_right _ _
      linarith
    have hceil : 1 ≤ (⌈l.getD (n - 1) 0 / (max (l.getD (pctIndex n (9/10)) 0) 1 / 10)⌉).toNat := by
      have hpos : (0:ℚ) < l.getD (n - 1) 0 / (max (l.getD (pctIndex n (9/10)) 0) 1 / 10) :=
        div_pos hmax hbw
      have := Int.ceil_pos.mpr hpos
      omega
    have hneed : 1 ≤ min (⌈l.getD (n - 1) 0 / (max (l.getD (pctIndex n (9/10)) 0) 1 / 10)⌉).toNat 15 := by
      omega
    rw [List.map_map, sum_map_range_eq]
    have hsum := countP_binSum l (fun v => 0 < v)
      (binIdx (max (l.getD (pctIndex n (9/10)) 0) 1 / 10)
        (min (⌈l.getD (n - 1) 0 / (max (l.getD (pctIndex n (9/10)) 0) 1 / 10)⌉).toNat 15))
      (min (⌈l.getD (n - 1) 0 / (max (l.getD (pctIndex n (9/10)) 0) 1 / 10)⌉).toNat 15)
      (by
        intro v _
        unfold binIdx
        omega)
    rw [show (∑ bi ∈ Finset.range
          (min (⌈l.getD (n - 1) 0 / (max (l.getD (pctIndex n (9/10)) 0) 1 / 10)⌉).toNat 15),
        (DistributionBin.count ∘ fun (bi : ℕ) =>
          (⟨(jsRound (((bi : ℚ) + 1) * (max (l.getD (pctIndex n (9/10)) 0) 1 / 10)) : ℚ),
            l.countP (fun v => decide (0 < v ∧
              binIdx (max (l.getD (pctIndex n (9/10)) 0) 1 / 10)
                (min (⌈l.getD (n - 1) 0 / (max (l.getD (pctIndex n (9/10)) 0) 1 / 10)⌉).toNat 15) v = bi)),
            false⟩ : DistributionBin)) bi) =
        ∑ bi ∈ Finset.range
          (min (⌈l.getD (n - 1) 0 / (max (l.getD (pctIndex n (9/10)) 0) 1 / 10)⌉).toNat 15),
          l.countP (fun v => decide (0 < v ∧
            binIdx (max (l.getD (pctIndex n (9/10)) 0) 1 / 10)
              (min (⌈l.getD (n - 1) 0 / (max (l.getD (pctIndex n (9/10)) 0) 1 / 10)⌉).toNat 15) v = bi))
      from rfl]
    rw [hsum]
    by_cases hdep : 0 < l.countP (fun v => decide (v ≤ 0))
    · rw [if_pos hdep]
      have := countP_pos_eq (l := l)
      simp only [List.map_cons, List.map_nil, List.sum_cons, List.sum_nil]
      omega
    · rw [if_neg hdep]
      have := countP_pos_eq (l := l)
      simp only [List.map_nil, List.sum_nil]
      omega
  · rw [if_neg hmax]
    have hall : l.countP (fun v => decide (v ≤ 0)) = l.length := by
      apply List.countP_eq_length.mpr
      intro x hx
      have := hlast x hx
      have h0 : l.getD (n - 1) 0 ≤ 0 := le_of_not_lt hmax
      apply decide_eq_true
      linarith
    have hdep : 0 < l.countP (fun v => decide (v ≤ 0)) := by omega
    rw [if_pos hdep]
    simp only [List.map_cons, List.map_nil, List.sum_cons, List.sum_nil]
    omega

theorem mkYearData_year (n : ℕ) (cx : Ctx) (y : ℕ) (s : SimState) :
    (mkYearData n cx y s).year = y := rfl

theorem mkYearData_contrib (n : ℕ) (cx : Ctx) (y : ℕ) (s : SimState) :
    (mkYearData n cx y s).isContributing = contribFlag cx y := rfl

theorem mkYearData_withdraw (n : ℕ) (cx : Ctx) (y : ℕ) (s : SimState) :
    (mkYearData n cx y s).isWithdrawing = withdrawFlag cx y := rfl

theorem mkYearData_p10 (n : ℕ) (cx : Ctx) (y : ℕ) (s : SimState) :
    (mkYearData n cx y s).p10 =
      (jsRound (s.sortedVals.getD (pctIndex n (1/10)) 0) : ℚ) := rfl

theorem mkYearData_p25 (n : ℕ) (cx : Ctx) (y : ℕ) (s : SimState) :
    (mkYearData n cx y s).p25 =
      (jsRound (s.sortedVals.getD (pctIndex n (1/4)) 0) : ℚ) := rfl

theorem mkYearData_p50 (n : ℕ) (cx : Ctx) (y : ℕ) (s : SimState) :
    (mkYearData n cx y s).p50 =
      (jsRound (s.sortedVals.getD (pctIndex n (1/2)) 0) : ℚ) := rfl

theorem mkYearData_p75 (n : ℕ) (cx : Ctx) (y : ℕ) (s : SimState) :
    (mkYearData n cx y s).p75 =
      (jsRound (s.sortedVals.getD (pctIndex n (3/4)) 0) : ℚ) := rfl

theorem mkYearData_p90 (n : ℕ) (cx : Ctx) (y : ℕ) (s : SimState) :
    (mkYearData n cx y s).p90 =
      (jsRound (s.sortedVals.getD (pctIndex n (9/10)) 0) : ℚ) := rfl

theorem mkYearData_deplete_none {n : ℕ} {cx : Ctx} {y : ℕ} {s : SimState}
    (h : withdrawFlag cx y = false) : (mkYearData n cx y s).depletionRate = none := by
  simp [mkYearData, h]

theorem mkYearData_deplete_some {n : ℕ} {cx : Ctx} {y : ℕ} {s : SimState}
    (h : withdrawFlag cx y = true) :
    (mkYearData n cx y s).depletionRate =
      some (((s.cells.map PathCell.v).countP (fun v => decide (v ≤ 0)) : ℚ) / (n : ℚ)) := by
  simp [mkYearData, h]

theorem mkYearData_mYW_some {n : ℕ} {cx : Ctx} {y : ℕ} {s : SimState}
    (h1 : withdrawFlag cx y = true) (h2 : cx.rate = true) :
    (mkYearData n cx y s).medianYearlyWithdrawal =
      some ((jsRound ((sortQ (s.cells.map PathCell.yw)).getD (pctIndex n (1/2)) 0) : ℚ)) := by
  simp [mkYearData, h1, h2]

/-- C10: for every configuration (and every oracle), the first element of
the returned yearly sequence is a year-0 snapshot whose five percentiles
and principal all equal `initialAmount` and whose `isContributing` and
`isWithdrawing` flags are both false — even when `contributionYears ≥ 1` or
an immediate withdrawal phase is configured — and this snapshot carries
neither `depletionRate` nor `medianYearlyWithdrawal`. -/
theorem claim10_year0Snapshot (O : Oracle) (c : MonteCarloInput) :
    (simulateMonteCarlo O c).yearlyData.getD 0 yd0 =
      ⟨0, c.initialAmount, c.initialAmount, c.initialAmount, c.initialAmount,
       c.initialAmount, c.initialAmount, false, false, none, none⟩ := by
  rw [sim_yearlyData]
  rfl

/-- C5: for every configuration (and every oracle), the counts of the
returned distribution bins sum to exactly `NUM_SIMULATIONS = 5000`: every
path's final value falls in exactly one bin. -/
theorem claim5_distributionSum (O : Oracle) (c : MonteCarloInput) :
    (((simulateMonteCarlo O c).distribution).map DistributionBin.count).sum =
      NUM_SIMULATIONS := by
  rw [sim_distribution]
  have hinv := runYears_inv O (mkCtx O c) (totalYearsOf c) 1
    (initState_inv NUM_SIMULATIONS c)
  exact distributionOf_sum (by norm_num [NUM_SIMULATIONS]) hinv.2.2 hinv.2.1

/-- C4: for every configuration, `totalYears` is the maximum of
`contributionYears` and `withdrawalStartYear + withdrawalYears`, the result
has exactly `totalYears + 1` snapshots, and for every year `y` in
`[1, totalYears]` the snapshot at index `y` is for year `y` with
`isContributing ↔ y ≤ contributionYears` and
`isWithdrawing ↔ withdrawalStartYear < y ≤ withdrawalStartYear + withdrawalYears`. -/
theorem claim4_schedule (O : Oracle) (c : MonteCarloInput) :
    totalYearsOf c = max c.contributionYears (c.withdrawalStartYear + c.withdrawalYears) ∧
    (simulateMonteCarlo O c).yearlyData.length = totalYearsOf c + 1 ∧
    ∀ y : ℕ, 1 ≤ y → y ≤ totalYearsOf c →
      ((simulateMonteCarlo O c).yearlyData.getD y yd0).year = y ∧
      (((simulateMonteCarlo O c).yearlyData.getD y yd0).isContributing = true ↔
        y ≤ c.contributionYears) ∧
      (((simulateMonteCarlo O c).yearlyData.getD y yd0).isWithdrawing = true ↔
        (c.withdrawalStartYear < y ∧ y ≤ c.withdrawalStartYear + c.withdrawalYears)) := by
  refine ⟨rfl, ?_, ?_⟩
  · rw [sim_yearlyData, List.length_cons, runYears_length]
  · intro y h1 h2
    rw [sim_yearlyData]
    obtain ⟨j, rfl⟩ : ∃ j, y = j + 1 := ⟨y - 1, by omega⟩
    rw [List.getD_cons_succ]
    obtain ⟨s1, _, _, h3⟩ := runYears_snap O (mkCtx O c) (totalYearsOf c) 1 j
      (initState_inv NUM_SIMULATIONS c) (by omega)
    rw [h3, mkYearData_year, mkYearData_contrib, mkYearData_withdraw]
    refine ⟨by omega, ?_, ?_⟩
    · unfold contribFlag
      rw [mkCtx_cy, decide_eq_true_eq]
      omega
    · unfold withdrawFlag
      rw [mkCtx_wsy, mkCtx_wy, decide_eq_true_eq]
      omega

/-- Witness for C4: the hypotheses hold at year 1 of Scenario D. -/
theorem claim4_schedule_witness :
    ((simulateMonteCarlo oracleOne cfgD).yearlyData.getD 1 yd0).year = 1 ∧
    (((simulateMonteCarlo oracleOne cfgD).yearlyData.getD 1 yd0).isContributing = true ↔
      1 ≤ cfgD.contributionYears) ∧
    (((simulateMonteCarlo oracleOne cfgD).yearlyData.getD 1 yd0).isWithdrawing = true ↔
      (cfgD.withdrawalStartYear < 1 ∧ 1 ≤ cfgD.withdrawalStartYear + cfgD.withdrawalYears)) :=
  (claim4_schedule oracleOne cfgD).2.2 1 (by norm_num)
    (by norm_num [totalYearsOf, cfgD])

/-- C7: with `withdrawalYears = 0` the call is well defined, the returned
`depletionProbability` is 0 and no snapshot carries a `depletionRate`. -/
theorem claim7_noWithdrawalYears (O : Oracle) (c : MonteCarloInput)
    (h : c.withdrawalYears = 0) :
    (simulateMonteCarlo O c).depletionProbability = 0 ∧
    ∀ i : ℕ, ((simulateMonteCarlo O c).yearlyData.getD i yd0).depletionRate = none := by
  have hw : ∀ y, withdrawFlag (mkCtx O c) y = false := by
    intro y
    unfold withdrawFlag
    rw [mkCtx_wsy, mkCtx_wy, h]
    simp
  constructor
  · rw [sim_depletion]
    cases Nat.eq_zero_or_pos (totalYearsOf c) with
    | inl h0 => rw [h0]; rfl
    | inr h0 =>
      have hne : (runYears O (mkCtx O c) NUM_SIMULATIONS 1 (totalYearsOf c)
          (initState NUM_SIMULATIONS c)).2 ≠ [] := by
        intro hnil
        have hlen := runYears_length O (mkCtx O c) NUM_SIMULATIONS (totalYearsOf c) 1
          (initState NUM_SIMULATIONS c)
        rw [hnil] at hlen
        simp at hlen
        omega
      rw [getLast?_cons_ne _ hne,
        runYears_getLast O (mkCtx O c) NUM_SIMULATIONS (totalYearsOf c) 1
          (initState NUM_SIMULATIONS c) h0,
        Option.some_bind, mkYearData_deplete_none (hw _)]
      rfl
  · intro i
    rw [sim_yearlyData]
    cases i with
    | zero => rfl
    | succ j =>
      rw [List.getD_cons_succ]
      by_cases hj : j < totalYearsOf c
      · obtain ⟨s1, _, _, h3⟩ := runYears_snap O (mkCtx O c) (totalYearsOf c) 1 j
          (initState_inv NUM_SIMULATIONS c) hj
        rw [h3, mkYearData_deplete_none (hw _)]
      · rw [List.getD_eq_default]
        · rfl
        · rw [runYears_length]
          omega

/-- Witness for C7 at a configuration with `withdrawalYears = 0`. -/
theorem claim7_noWithdrawalYears_witness :
    (simulateMonteCarlo oracleOne cfgLoss).depletionProbability = 0 ∧
    ∀ i : ℕ,
      ((simulateMonteCarlo oracleOne cfgLoss).yearlyData.getD i yd0).depletionRate = none :=
  claim7_noWithdrawalYears oracleOne cfgLoss rfl

/-- C3: for one monthly withdrawal step with pre-withdrawal value `v > 0`,
cost basis `b`, base withdrawal need `w` and pension `p`: the net
withdrawal is `max (w - p) 0`; the tax owed is
`net * max 0 ((v - b)/v) * taxRate` with `taxRate` equal to 0 in tax-free
mode and 20.315% otherwise; the new cost basis is
`b * (1 - min (net/v) 1)`; and the new value is `v - net - tax` floored
at 0. -/
theorem claim3_withdrawalFormulas (O : Oracle) (c : MonteCarloInput)
    (w p v b : ℚ) (hv : 0 < v) :
    (mkCtx O c).taxRate = (if c.taxFree then 0 else 20315/100000) ∧
    withdrawalNet w p = max (w - p) 0 ∧
    (withdrawalStep (mkCtx O c).taxRate (withdrawalNet w p) v b).2 =
      b * (1 - min (withdrawalNet w p / v) 1) ∧
    (withdrawalStep (mkCtx O c).taxRate (withdrawalNet w p) v b).1 =
      max (v - withdrawalNet w p -
        withdrawalNet w p * max 0 ((v - b) / v) * (mkCtx O c).taxRate) 0 := by
  refine ⟨rfl, rfl, rfl, ?_⟩
  unfold withdrawalStep
  by_cases hb : b < v
  · rw [if_pos hb]
    rw [max_eq_right (div_nonneg (by linarith) hv.le)]
  · rw [if_neg hb]
    have h0 : (v - b) / v ≤ 0 :=
      div_nonpos_iff.mpr (Or.inr ⟨by linarith, hv.le⟩)
    rw [max_eq_left h0]

/-- Witness for C3 at `v = 100 > 0`, `b = 50`, `w = 30`, `p = 10`. -/
theorem claim3_withdrawalFormulas_witness :
    (mkCtx oracleOne cfgBothA).taxRate = (if cfgBothA.taxFree then 0 else 20315/100000) ∧
    withdrawalNet 30 10 = max (30 - 10) 0 ∧
    (withdrawalStep (mkCtx oracleOne cfgBothA).taxRate (withdrawalNet 30 10) 100 50).2 =
      50 * (1 - min (withdrawalNet 30 10 / 100) 1) ∧
    (withdrawalStep (mkCtx oracleOne cfgBothA).taxRate (withdrawalNet 30 10) 100 50).1 =
      max (100 - withdrawalNet 30 10 -
        withdrawalNet 30 10 * max 0 ((100 - 50) / 100) * (mkCtx oracleOne cfgBothA).taxRate) 0 :=
  claim3_withdrawalFormulas oracleOne cfgBothA 30 10 100 50 (by norm_num)

/-- C6: for every configuration, every oracle and every snapshot of the
result, the five reported percentiles are non-decreasing:
p10 ≤ p25 ≤ p50 ≤ p75 ≤ p90. -/
theorem claim6_percentilesMono (O : Oracle) (c : MonteCarloInput) (i : ℕ) :
    ((simulateMonteCarlo O c).yearlyData.getD i yd0).p10 ≤
      ((simulateMonteCarlo O c).yearlyData.getD i yd0).p25 ∧
    ((simulateMonteCarlo O c).yearlyData.getD i yd0).p25 ≤
      ((simulateMonteCarlo O c).yearlyData.getD i yd0).p50 ∧
    ((simulateMonteCarlo O c).yearlyData.getD i yd0).p50 ≤
      ((simulateMonteCarlo O c).yearlyData.getD i yd0).p75 ∧
    ((simulateMonteCarlo O c).yearlyData.getD i yd0).p75 ≤
      ((simulateMonteCarlo O c).yearlyData.getD i yd0).p90 := by
  rw [sim_yearlyData]
  cases i with
  | zero =>
    rw [List.getD_cons_zero]
    exact ⟨le_rfl, le_rfl, le_rfl, le_rfl⟩
  | succ j =>
    rw [List.getD_cons_succ]
    by_cases hj : j < totalYearsOf c
    · obtain ⟨s1, hinv, hsv, h3⟩ := runYears_snap O (mkCtx O c) (totalYearsOf c) 1 j
        (initState_inv NUM_SIMULATIONS c) hj
      rw [h3, mkYearData_p10, mkYearData_p25, mkYearData_p50, mkYearData_p75, mkYearData_p90]
      obtain ⟨_, hlen, hsort⟩ := hinv
      have hmono : ∀ a b : ℕ, a ≤ b → b < NUM_SIMULATIONS →
          s1.sortedVals.getD a 0 ≤ s1.sortedVals.getD b 0 := by
        intro a b hab hb
        exact sorted_getD_mono hsort hab (by rw [hlen]; exact hb)
      have i1 : pctIndex NUM_SIMULATIONS (1/10) = 500 := by
        norm_num [pctIndex, NUM_SIMULATIONS]
        rfl
      have i2 : pctIndex NUM_SIMULATIONS (1/4) = 1250 := by
        norm_num [pctIndex, NUM_SIMULATIONS]
        rfl
      have i3 : pctIndex NUM_SIMULATIONS (1/2) = 2500 := by
        norm_num [pctIndex, NUM_SIMULATIONS]
        rfl
      have i4 : pctIndex NUM_SIMULATIONS (3/4) = 3750 := by
        norm_num [pctIndex, NUM_SIMULATIONS]
        rfl
      have i5 : pctIndex NUM_SIMULATIONS (9/10) = 4500 := by
        norm_num [pctIndex, NUM_SIMULATIONS]
        rfl
      rw [i1, i2, i3, i4, i5]
      have hn : (4500 : ℕ) < NUM_SIMULATIONS := by norm_num [NUM_SIMULATIONS]
      refine ⟨?_, ?_, ?_, ?_⟩
      · exact Int.cast_le.mpr (jsRound_mono (hmono 500 1250 (by norm_num)
          (by norm_num [NUM_SIMULATIONS])))
      · exact Int.cast_le.mpr (jsRound_mono (hmono 1250 2500 (by norm_num)
          (by norm_num [NUM_SIMULATIONS])))
      · exact Int.cast_le.mpr (jsRound_mono (hmono 2500 3750 (by norm_num)
          (by norm_num [NUM_SIMULATIONS])))
      · exact Int.cast_le.mpr (jsRound_mono (hmono 3750 4500 (by norm_num)
          (by norm_num [NUM_SIMULATIONS])))
    · rw [List.getD_eq_default]
      · exact ⟨le_rfl, le_rfl, le_rfl, le_rfl⟩
      · rw [runYears_length]
        omega

theorem pathStep_zeroCell (O : Oracle) (cx : Ctx) (wb : Bool) (rdm cmw : ℚ) (k : ℕ) :
    pathStep O cx false wb rdm cmw k cell0 = cell0 := by
  unfold pathStep cell0
  simp

theorem stepCells_fix {f : ℕ → PathCell → PathCell} {p : PathCell} (hf : ∀ k, f k p = p) :
    ∀ (m k : ℕ), stepCells f k (List.replicate m p) = List.replicate m p := by
  intro m
  induction m with
  | zero => intro k; rfl
  | succ m ih =>
    intro k
    simp only [List.replicate_succ, stepCells]
    rw [hf k, ih (k + 1)]

/-- C1 (amended): whenever the total contributed principal
`initialAmount + 12 * contributionYears * monthlyContribution` is positive
— in particular for every configuration with a positive initial amount and
nonnegative contributions — the returned `failureProbability` is at least
the returned `depletionProbability`. -/
theorem claim1_failureGeDepletion (O : Oracle) (c : MonteCarloInput)
    (h : 0 < c.initialAmount + 12 * (c.contributionYears : ℚ) * c.monthlyContribution) :
    (simulateMonteCarlo O c).depletionProbability ≤
      (simulateMonteCarlo O c).failureProbability := by
  have htp : (runYears O (mkCtx O c) NUM_SIMULATIONS 1 (totalYearsOf c)
      (initState NUM_SIMULATIONS c)).1.tp =
      c.initialAmount + 12 * (c.contributionYears : ℚ) * c.monthlyContribution := by
    rw [runYears_tp, countP_range'_cy (mkCtx O c).cy (totalYearsOf c)
      (le_max_left c.contributionYears (c.withdrawalStartYear + c.withdrawalYears))]
    rw [show (initState NUM_SIMULATIONS c).tp = c.initialAmount from rfl]
    rw [show (mkCtx O c).cy = c.contributionYears from rfl]
    rw [show (mkCtx O c).mc = c.monthlyContribution from rfl]
    ring
  have hfpos : (0 : ℚ) ≤ (simulateMonteCarlo O c).failureProbability := by
    rw [sim_failure]
    positivity
  rw [sim_depletion]
  cases Nat.eq_zero_or_pos (totalYearsOf c) with
  | inl h0 =>
    rw [h0]
    exact hfpos
  | inr h0 =>
    have hne : (runYears O (mkCtx O c) NUM_SIMULATIONS 1 (totalYearsOf c)
        (initState NUM_SIMULATIONS c)).2 ≠ [] := by
      intro hnil
      have hlen := runYears_length O (mkCtx O c) NUM_SIMULATIONS (totalYearsOf c) 1
        (initState NUM_SIMULATIONS c)
      rw [hnil] at hlen
      simp at hlen
      omega
    rw [getLast?_cons_ne _ hne,
      runYears_getLast O (mkCtx O c) NUM_SIMULATIONS (totalYearsOf c) 1
        (initState NUM_SIMULATIONS c) h0,
      Option.some_bind]
    rw [show (1 : ℕ) + totalYearsOf c - 1 = totalYearsOf c by omega]
    by_cases hwf : withdrawFlag (mkCtx O c) (totalYearsOf c) = true
    · rw [mkYearData_deplete_some hwf, Option.getD_some, sim_failure]
      rw [div_le_div_iff_of_pos_right (by norm_num [NUM_SIMULATIONS] : (0:ℚ) < (NUM_SIMULATIONS : ℚ))]
      apply Nat.cast_le.mpr
      apply List.countP_mono_left
      intro a _ hp
      apply decide_eq_true
      have ha : a ≤ 0 := of_decide_eq_true hp
      rw [htp]
      linarith
    · rw [mkYearData_deplete_none (Bool.not_eq_true _ ▸ hwf)]
      exact hfpos

/-- Witness for the amended C1 at Scenario D (positive principal). -/
theorem claim1_failureGeDepletion_witness :
    (simulateMonteCarlo oracleOne cfgD).depletionProbability ≤
      (simulateMonteCarlo oracleOne cfgD).failureProbability :=
  claim1_failureGeDepletion oracleOne cfgD (by norm_num [cfgD])

theorem monthStep_zeroState (r : ℕ) :
    monthStep oracleOne (mkCtx oracleOne cfgZeroPrincipal) false true
      ⟨List.replicate 5000 cell0, List.replicate 5000 0, 1, false, 0, 0, r⟩ =
      ⟨List.replicate 5000 cell0, List.replicate 5000 0, 1, false, 0, 0, r + 5000⟩ := by
  unfold monthStep
  rw [show (mkCtx oracleOne cfgZeroPrincipal).rate = false from rfl,
      show (mkCtx oracleOne cfgZeroPrincipal).adj = false from rfl]
  simp only [List.length_replicate, Bool.false_eq_true, and_false, false_and, true_and,
    if_false, ite_false]
  rw [stepCells_fix (fun k => pathStep_zeroCell oracleOne
      (mkCtx oracleOne cfgZeroPrincipal) true 1 0 k) 5000 r]

theorem monthStep_zeroState_iter (m r : ℕ) :
    (monthStep oracleOne (mkCtx oracleOne cfgZeroPrincipal) false true)^[m]
      ⟨List.replicate 5000 cell0, List.replicate 5000 0, 1, false, 0, 0, r⟩ =
      ⟨List.replicate 5000 cell0, List.replicate 5000 0, 1, false, 0, 0, r + 5000 * m⟩ := by
  induction m generalizing r with
  | zero => rw [Function.iterate_zero_apply, Nat.mul_zero, Nat.add_zero]
  | succ m ih =>
    have h : r + 5000 + 5000 * m = r + 5000 * (m + 1) := by ring
    rw [Function.iterate_succ_apply, monthStep_zeroState, ih, h]

theorem yearStep_zeroState :
    yearStep oracleOne (mkCtx oracleOne cfgZeroPrincipal) 1
      (initState NUM_SIMULATIONS cfgZeroPrincipal) =
      ⟨List.replicate 5000 cell0, List.replicate 5000 0, 1, false, 0, 0, 60000⟩ := by
  unfold yearStep
  rw [show contribFlag (mkCtx oracleOne cfgZeroPrincipal) 1 = false from rfl,
      show withdrawFlag (mkCtx oracleOne cfgZeroPrincipal) 1 = true from rfl,
      show yearInit (mkCtx oracleOne cfgZeroPrincipal)
        (initState NUM_SIMULATIONS cfgZeroPrincipal) =
        ⟨List.replicate 5000 cell0, List.replicate 5000 0, 1, false, 0, 0, 0⟩ from rfl,
      monthStep_zeroState_iter]
  dsimp only
  rw [show (List.replicate 5000 cell0).map PathCell.v = List.replicate 5000 0 from by
    rw [List.map_replicate]; rfl]
  rw [sortQ_replicate]

theorem runYears_zeroState :
    runYears oracleOne (mkCtx oracleOne cfgZeroPrincipal) NUM_SIMULATIONS 1 1
      (initState NUM_SIMULATIONS cfgZeroPrincipal) =
      (⟨List.replicate 5000 cell0, List.replicate 5000 0, 1, false, 0, 0, 60000⟩,
       [mkYearData NUM_SIMULATIONS (mkCtx oracleOne cfgZeroPrincipal) 1
         ⟨List.replicate 5000 cell0, List.replicate 5000 0, 1, false, 0, 0, 60000⟩]) := by
  rw [show runYears oracleOne (mkCtx oracleOne cfgZeroPrincipal) NUM_SIMULATIONS 1 1
      (initState NUM_SIMULATIONS cfgZeroPrincipal) =
      (yearStep oracleOne (mkCtx oracleOne cfgZeroPrincipal) 1
         (initState NUM_SIMULATIONS cfgZeroPrincipal),
       [mkYearData NUM_SIMULATIONS (mkCtx oracleOne cfgZeroPrincipal) 1
         (yearStep oracleOne (mkCtx oracleOne cfgZeroPrincipal) 1
           (initState NUM_SIMULATIONS cfgZeroPrincipal))]) from rfl]
  rw [yearStep_zeroState]

/-- C1 counterexample: for the in-domain configuration with zero initial
amount and no contributions but one immediate withdrawal year, every path
stays at 0, so the last snapshot depletion rate is 1 while no final value
is strictly below the (zero) total principal: `failureProbability = 0 <
1 = depletionProbability`, refuting the claimed invariant as stated. -/
theorem claim1_counterexample :
    (simulateMonteCarlo oracleOne cfgZeroPrincipal).failureProbability = 0 ∧
    (simulateMonteCarlo oracleOne cfgZeroPrincipal).depletionProbability = 1 ∧
    ¬ ((simulateMonteCarlo oracleOne cfgZeroPrincipal).depletionProbability ≤
       (simulateMonteCarlo oracleOne cfgZeroPrincipal).failureProbability) := by
  have htot : totalYearsOf cfgZeroPrincipal = 1 := rfl
  have hfail : (simulateMonteCarlo oracleOne cfgZeroPrincipal).failureProbability = 0 := by
    rw [sim_failure, htot, runYears_zeroState]
    dsimp only
    rw [show (List.replicate 5000 cell0).map PathCell.v = List.replicate 5000 0 from by
      rw [List.map_replicate]; rfl]
    rw [countP_replicate]
    norm_num
  have hdep : (simulateMonteCarlo oracleOne cfgZeroPrincipal).depletionProbability = 1 := by
    rw [sim_depletion, htot, runYears_zeroState]
    dsimp only
    rw [show (year0Data cfgZeroPrincipal ::
        [mkYearData NUM_SIMULATIONS (mkCtx oracleOne cfgZeroPrincipal) 1
          ⟨List.replicate 5000 cell0, List.replicate 5000 0, 1, false, 0, 0, 60000⟩]).getLast? =
        some (mkYearData NUM_SIMULATIONS (mkCtx oracleOne cfgZeroPrincipal) 1
          ⟨List.replicate 5000 cell0, List.replicate 5000 0, 1, false, 0, 0, 60000⟩) from rfl]
    rw [Option.some_bind]
    rw [mkYearData_deplete_some
      (show withdrawFlag (mkCtx oracleOne cfgZeroPrincipal) 1 = true from rfl)]
    rw [Option.getD_some]
    rw [show (⟨List.replicate 5000 cell0, List.replicate 5000 0, 1, false, 0, 0,
        (60000 : ℕ)⟩ : SimState).cells = List.replicate 5000 cell0 from rfl]
    rw [show (List.replicate 5000 cell0).map PathCell.v = List.replicate 5000 0 from by
      rw [List.map_replicate]; rfl]
    rw [countP_replicate]
    norm_num [NUM_SIMULATIONS]
  refine ⟨hfail, hdep, ?_⟩
  rw [hfail, hdep]
  norm_num

theorem pathStep_cmw_irrel {cx : Ctx} (hrate : cx.rate = true) (O : Oracle)
    (cb wb : Bool) (rdm cmw1 cmw2 : ℚ) (k : ℕ) (p : PathCell) :
    pathStep O cx cb wb rdm cmw1 k p = pathStep O cx cb wb rdm cmw2 k p := by
  unfold pathStep
  rw [hrate]
  simp

theorem monthStep_eqButCmw {cx : Ctx} (hrate : cx.rate = true) (O : Oracle)
    (cb wb : Bool) {s t : SimState} (h : eqButCmw s t) :
    eqButCmw (monthStep O cx cb wb s) (monthStep O cx cb wb t) := by
  obtain ⟨cs, sv, rdm, st, c1, tp, rn⟩ := s
  obtain ⟨cs2, sv2, rdm2, st2, c2, tp2, rn2⟩ := t
  obtain ⟨h1, h2, h3, h4, h5, h6⟩ := h
  simp only at h1 h2 h3 h4 h5 h6
  subst h1
  subst h2
  subst h3
  subst h4
  subst h5
  subst h6
  unfold monthStep eqButCmw
  simp only [hrate]
  norm_num
  apply stepCells_congr
  intro k p
  exact pathStep_cmw_irrel hrate O cb wb _ _ _ k p

theorem yearInit_eqButCmw {cx : Ctx} {s t : SimState} (h : eqButCmw s t) :
    eqButCmw (yearInit cx s) (yearInit cx t) := by
  obtain ⟨h1, h2, h3, h4, h5, h6⟩ := h
  unfold yearInit eqButCmw
  cases cx.rate <;> simp [h1, h2, h3, h4, h5, h6]

theorem yearStep_eqButCmw {cx : Ctx} (hrate : cx.rate = true) (O : Oracle)
    (y : ℕ) {s t : SimState} (h : eqButCmw s t) :
    eqButCmw (yearStep O cx y s) (yearStep O cx y t) := by
  have hiter : ∀ j : ℕ,
      eqButCmw ((monthStep O cx (contribFlag cx y) (withdrawFlag cx y))^[j] (yearInit cx s))
        ((monthStep O cx (contribFlag cx y) (withdrawFlag cx y))^[j] (yearInit cx t)) := by
    intro j
    induction j with
    | zero => exact yearInit_eqButCmw h
    | succ j ih =>
      rw [Function.iterate_succ_apply', Function.iterate_succ_apply']
      exact monthStep_eqButCmw hrate O _ _ ih
  obtain ⟨h1, h2, h3, h4, h5, h6⟩ := hiter 12
  unfold yearStep eqButCmw
  dsimp only
  exact ⟨h1, by rw [h1], h3, h4, h5, h6⟩

theorem mkYearData_eqButCmw {cx : Ctx} (n y : ℕ) {s t : SimState} (h : eqButCmw s t) :
    mkYearData n cx y s = mkYearData n cx y t := by
  obtain ⟨h1, h2, h3, h4, h5, h6⟩ := h
  unfold mkYearData
  rw [h1, h2, h5]

theorem runYears_eqButCmw {cx : Ctx} (hrate : cx.rate = true) (O : Oracle) (n : ℕ) :
    ∀ (k y : ℕ) {s t : SimState}, eqButCmw s t →
      (runYears O cx n y k s).2 = (runYears O cx n y k t).2 ∧
      eqButCmw (runYears O cx n y k s).1 (runYears O cx n y k t).1 := by
  intro k
  induction k with
  | zero => intro y s t h; exact ⟨rfl, h⟩
  | succ k ih =>
    intro y s t h
    have hy := yearStep_eqButCmw hrate O y h
    obtain ⟨ht, hs⟩ := ih (y + 1) hy
    constructor
    · show mkYearData n cx y (yearStep O cx y s) :: _ =
        mkYearData n cx y (yearStep O cx y t) :: _
      rw [mkYearData_eqButCmw n y hy, ht]
    · exact hs

/-- C2 (amended): whenever `annualWithdrawalRate` is populated with a
positive value, the run is in rate mode and the populated
`monthlyWithdrawal` is ignored: the whole result is independent of it.
(When `annualWithdrawalRate` is populated with a non-positive value such
as 0, the source falls back to fixed-amount mode instead.) -/
theorem claim2_rateModeWins (O : Oracle) (c : MonteCarloInput) (w1 w2 : ℚ)
    (h : isRateMode c = true) :
    simulateMonteCarlo O (setMW c w1) = simulateMonteCarlo O (setMW c w2) := by
  have hctx : ∀ w : ℚ, mkCtx O (setMW c w) = mkCtx O c := fun w => rfl
  have htot : ∀ w : ℚ, totalYearsOf (setMW c w) = totalYearsOf c := fun w => rfl
  have hrate : (mkCtx O c).rate = true := by rw [mkCtx_rate]; exact h
  have hinit : eqButCmw (initState NUM_SIMULATIONS (setMW c w1))
      (initState NUM_SIMULATIONS (setMW c w2)) :=
    ⟨rfl, rfl, rfl, rfl, rfl, rfl⟩
  have hrun := runYears_eqButCmw hrate O NUM_SIMULATIONS (totalYearsOf c) 1 hinit
  obtain ⟨hsnap, ⟨g1, g2, g3, g4, g5, g6⟩⟩ := hrun
  unfold simulateMonteCarlo
  dsimp only
  rw [hctx w1, hctx w2, htot w1, htot w2]
  rw [show year0Data (setMW c w1) = year0Data (setMW c w2) from rfl]
  rw [hsnap, g1, g2, g5]

/-- Witness for the amended C2: Scenario D has a positive
`annualWithdrawalRate`, and its result ignores `monthlyWithdrawal`. -/
theorem claim2_rateModeWins_witness :
    simulateMonteCarlo oracleOne (setMW cfgD 123456) =
      simulateMonteCarlo oracleOne (setMW cfgD 0) :=
  claim2_rateModeWins oracleOne cfgD 123456 0 rfl

theorem pathStep_amountA (k : ℕ) (v : ℚ) (hge : (100000:ℚ) ≤ v) :
    pathStep oracleOne (mkCtx oracleOne cfgBothA) false true 1 100000 k ⟨v, v, 0, 0⟩ =
      ⟨v - 100000, v - 100000, 0, 0⟩ := by
  have hv : (0:ℚ) < v := lt_of_lt_of_le (by norm_num) hge
  have hne : v ≠ 0 := ne_of_gt hv
  unfold pathStep withdrawalNet withdrawalStep
  rw [show oracleOne.expQ ((mkCtx oracleOne cfgBothA).drift +
      (mkCtx oracleOne cfgBothA).msig * oracleOne.gauss k) = 1 from rfl,
      show (mkCtx oracleOne cfgBothA).rate = false from rfl,
      show (mkCtx oracleOne cfgBothA).pension = 0 from rfl,
      show (mkCtx oracleOne cfgBothA).taxRate = 0 from rfl]
  simp only [Bool.false_eq_true, if_false, ite_false, mul_one]
  rw [if_pos ⟨trivial, hv⟩, if_neg (lt_irrefl v)]
  norm_num
  refine ⟨hge, ?_⟩
  rw [min_eq_left ((div_le_one hv).mpr hge)]
  field_simp

theorem pathStep_amountB (k : ℕ) (v : ℚ) (hv : 0 < v) :
    pathStep oracleOne (mkCtx oracleOne cfgBothB) false true 1 0 k ⟨v, v, 0, 0⟩ =
      ⟨v, v, 0, 0⟩ := by
  unfold pathStep withdrawalNet withdrawalStep
  rw [show oracleOne.expQ ((mkCtx oracleOne cfgBothB).drift +
      (mkCtx oracleOne cfgBothB).msig * oracleOne.gauss k) = 1 from rfl,
      show (mkCtx oracleOne cfgBothB).rate = false from rfl,
      show (mkCtx oracleOne cfgBothB).pension = 0 from rfl,
      show (mkCtx oracleOne cfgBothB).taxRate = 0 from rfl]
  simp only [Bool.false_eq_true, if_false, ite_false, mul_one]
  rw [if_pos ⟨trivial, hv⟩, if_neg (lt_irrefl v)]
  norm_num
  exact hv.le

theorem monthStep_stuckA (r : ℕ) :
    monthStep oracleOne (mkCtx oracleOne cfgBothA) false true
      ⟨List.replicate 5000 cell0, List.replicate 5000 0, 1, false, 100000, 1000000, r⟩ =
      ⟨List.replicate 5000 cell0, List.replicate 5000 0, 1, false, 100000, 1000000,
       r + 5000⟩ := by
  unfold monthStep
  rw [show (mkCtx oracleOne cfgBothA).rate = false from rfl,
      show (mkCtx oracleOne cfgBothA).adj = false from rfl]
  simp only [List.length_replicate, Bool.false_eq_true, and_false, false_and, true_and,
    if_false, ite_false]
  rw [stepCells_fix (fun k => pathStep_zeroCell oracleOne
      (mkCtx oracleOne cfgBothA) true 1 100000 k) 5000 r]

theorem monthStep_amountA (r : ℕ) (v : ℚ) (hge : (100000:ℚ) ≤ v) :
    monthStep oracleOne (mkCtx oracleOne cfgBothA) false true
      ⟨List.replicate 5000 ⟨v, v, 0, 0⟩, List.replicate 5000 0, 1, false, 100000,
       1000000, r⟩ =
      ⟨List.replicate 5000 ⟨v - 100000, v - 100000, 0, 0⟩, List.replicate 5000 0, 1,
       false, 100000, 1000000, r + 5000⟩ := by
  unfold monthStep
  rw [show (mkCtx oracleOne cfgBothA).rate = false from rfl,
      show (mkCtx oracleOne cfgBothA).adj = false from rfl]
  simp only [List.length_replicate, Bool.false_eq_true, and_false, false_and, true_and,
    if_false, ite_false]
  rw [stepCells_const (pathStep oracleOne (mkCtx oracleOne cfgBothA) false true 1 100000)
      (fun k p => rfl) 5000 r ⟨v, v, 0, 0⟩]
  rw [pathStep_amountA 0 v hge]

theorem monthStep_amountB (r : ℕ) (v : ℚ) (hv : (0:ℚ) < v) :
    monthStep oracleOne (mkCtx oracleOne cfgBothB) false true
      ⟨List.replicate 5000 ⟨v, v, 0, 0⟩, List.replicate 5000 0, 1, false, 0,
       1000000, r⟩ =
      ⟨List.replicate 5000 ⟨v, v, 0, 0⟩, List.replicate 5000 0, 1, false, 0,
       1000000, r + 5000⟩ := by
  unfold monthStep
  rw [show (mkCtx oracleOne cfgBothB).rate = false from rfl,
      show (mkCtx oracleOne cfgBothB).adj = false from rfl]
  simp only [List.length_replicate, Bool.false_eq_true, and_false, false_and, true_and,
    if_false, ite_false]
  rw [stepCells_fix (fun k => pathStep_amountB k v hv) 5000 r]

theorem mkYearData_mYW_none {n : ℕ} {cx : Ctx} {y : ℕ} {s : SimState}
    (h : ¬ (withdrawFlag cx y = true ∧ cx.rate = true)) :
    (mkYearData n cx y s).medianYearlyWithdrawal = none := by
  simp only [mkYearData]
  rw [if_neg h]

theorem iterate_twelve {α : Type} (f : α → α) (x : α) :
    f^[12] x = f (f (f (f (f (f (f (f (f (f (f (f x))))))))))) := rfl

theorem yearStep_amountA :
    yearStep oracleOne (mkCtx oracleOne cfgBothA) 1 (initState NUM_SIMULATIONS cfgBothA) =
      ⟨List.replicate 5000 cell0, List.replicate 5000 0, 1, false, 100000, 1000000,
       60000⟩ := by
  unfold yearStep
  rw [show contribFlag (mkCtx oracleOne cfgBothA) 1 = false from rfl,
      show withdrawFlag (mkCtx oracleOne cfgBothA) 1 = true from rfl,
      show yearInit (mkCtx oracleOne cfgBothA) (initState NUM_SIMULATIONS cfgBothA) =
        ⟨List.replicate 5000 ⟨1000000, 1000000, 0, 0⟩, List.replicate 5000 0, 1, false,
         100000, 1000000, 0⟩ from rfl]
  rw [iterate_twelve]
  rw [monthStep_amountA _ 1000000 (by norm_num)]
  norm_num
  rw [monthStep_amountA _ 900000 (by norm_num)]
  norm_num
  rw [monthStep_amountA _ 800000 (by norm_num)]
  norm_num
  rw [monthStep_amountA _ 700000 (by norm_num)]
  norm_num
  rw [monthStep_amountA _ 600000 (by norm_num)]
  norm_num
  rw [monthStep_amountA _ 500000 (by norm_num)]
  norm_num
  rw [monthStep_amountA _ 400000 (by norm_num)]
  norm_num
  rw [monthStep_amountA _ 300000 (by norm_num)]
  norm_num
  rw [monthStep_amountA _ 200000 (by norm_num)]
  norm_num
  rw [monthStep_amountA _ 100000 (by norm_num)]
  norm_num
  rw [show ({ v := 0, b := 0, iwa := 0, yw := 0 } : PathCell) = cell0 from rfl]
  rw [monthStep_stuckA _]
  rw [monthStep_stuckA _]
  rw [show (List.replicate 5000 cell0).map PathCell.v = List.replicate 5000 0 from by
    rw [List.map_replicate]
    rfl]
  rw [sortQ_replicate]
  norm_num

theorem yearStep_amountB :
    yearStep oracleOne (mkCtx oracleOne cfgBothB) 1 (initState NUM_SIMULATIONS cfgBothB) =
      ⟨List.replicate 5000 ⟨1000000, 1000000, 0, 0⟩, List.replicate 5000 1000000, 1,
       false, 0, 1000000, 60000⟩ := by
  unfold yearStep
  rw [show contribFlag (mkCtx oracleOne cfgBothB) 1 = false from rfl,
      show withdrawFlag (mkCtx oracleOne cfgBothB) 1 = true from rfl,
      show yearInit (mkCtx oracleOne cfgBothB) (initState NUM_SIMULATIONS cfgBothB) =
        ⟨List.replicate 5000 ⟨1000000, 1000000, 0, 0⟩, List.replicate 5000 0, 1, false,
         0, 1000000, 0⟩ from rfl]
  rw [iterate_twelve]
  iterate 12 rw [monthStep_amountB _ 1000000 (by norm_num)]
  dsimp only
  rw [show (List.replicate 5000 (⟨1000000, 1000000, 0, 0⟩ : PathCell)).map PathCell.v =
      List.replicate 5000 1000000 from by
    rw [List.map_replicate]]
  rw [sortQ_replicate]

theorem runYears_amountA :
    runYears oracleOne (mkCtx oracleOne cfgBothA) NUM_SIMULATIONS 1 1
      (initState NUM_SIMULATIONS cfgBothA) =
      (⟨List.replicate 5000 cell0, List.replicate 5000 0, 1, false, 100000, 1000000,
        60000⟩,
       [mkYearData NUM_SIMULATIONS (mkCtx oracleOne cfgBothA) 1
         ⟨List.replicate 5000 cell0, List.replicate 5000 0, 1, false, 100000, 1000000,
          60000⟩]) := by
  rw [show runYears oracleOne (mkCtx oracleOne cfgBothA) NUM_SIMULATIONS 1 1
      (initState NUM_SIMULATIONS cfgBothA) =
      (yearStep oracleOne (mkCtx oracleOne cfgBothA) 1 (initState NUM_SIMULATIONS cfgBothA),
       [mkYearData NUM_SIMULATIONS (mkCtx oracleOne cfgBothA) 1
         (yearStep oracleOne (mkCtx oracleOne cfgBothA) 1
           (initState NUM_SIMULATIONS cfgBothA))]) from rfl]
  rw [yearStep_amountA]

theorem runYears_amountB :
    runYears oracleOne (mkCtx oracleOne cfgBothB) NUM_SIMULATIONS 1 1
      (initState NUM_SIMULATIONS cfgBothB) =
      (⟨List.replicate 5000 ⟨1000000, 1000000, 0, 0⟩, List.replicate 5000 1000000, 1,
        false, 0, 1000000, 60000⟩,
       [mkYearData NUM_SIMULATIONS (mkCtx oracleOne cfgBothB) 1
         ⟨List.replicate 5000 ⟨1000000, 1000000, 0, 0⟩, List.replicate 5000 1000000, 1,
          false, 0, 1000000, 60000⟩]) := by
  rw [show runYears oracleOne (mkCtx oracleOne cfgBothB) NUM_SIMULATIONS 1 1
      (initState NUM_SIMULATIONS cfgBothB) =
      (yearStep oracleOne (mkCtx oracleOne cfgBothB) 1 (initState NUM_SIMULATIONS cfgBothB),
       [mkYearData NUM_SIMULATIONS (mkCtx oracleOne cfgBothB) 1
         (yearStep oracleOne (mkCtx oracleOne cfgBothB) 1
           (initState NUM_SIMULATIONS cfgBothB))]) from rfl]
  rw [yearStep_amountB]

/-- C2 counterexample: `cfgBothA` populates both withdrawal-mode fields
(`monthlyWithdrawal = 100000`, `annualWithdrawalRate = some 0`), yet the
run uses fixed-amount sizing: after one withdrawal year the median is 0,
while the identical configuration with `monthlyWithdrawal = 0` keeps its
million — the populated `monthlyWithdrawal` is not ignored and no
rate-mode `medianYearlyWithdrawal` is reported, refuting rate-mode
priority for a populated-but-zero rate. -/
theorem claim2_counterexample :
    ((simulateMonteCarlo oracleOne cfgBothA).yearlyData.getD 1 yd0).p50 = 0 ∧
    ((simulateMonteCarlo oracleOne cfgBothB).yearlyData.getD 1 yd0).p50 = 1000000 ∧
    ((simulateMonteCarlo oracleOne cfgBothA).yearlyData.getD 1
      yd0).medianYearlyWithdrawal = none ∧
    cfgBothA = setMW cfgBothB 100000 ∧
    simulateMonteCarlo oracleOne cfgBothA ≠ simulateMonteCarlo oracleOne cfgBothB := by
  have hm : pctIndex NUM_SIMULATIONS (1/2) = 2500 := by
    norm_num [pctIndex, NUM_SIMULATIONS]
    rfl
  have hA : ((simulateMonteCarlo oracleOne cfgBothA).yearlyData.getD 1 yd0).p50 = 0 := by
    rw [sim_yearlyData, show totalYearsOf cfgBothA = 1 from rfl, runYears_amountA,
      List.getD_cons_succ, List.getD_cons_zero, mkYearData_p50, hm]
    rw [show (⟨List.replicate 5000 cell0, List.replicate 5000 0, 1, false, 100000,
        1000000, (60000:ℕ)⟩ : SimState).sortedVals = List.replicate 5000 0 from rfl]
    rw [getD_replicate (0:ℚ) 0 (by norm_num)]
    norm_num [jsRound]
  have hB : ((simulateMonteCarlo oracleOne cfgBothB).yearlyData.getD 1 yd0).p50 =
      1000000 := by
    rw [sim_yearlyData, show totalYearsOf cfgBothB = 1 from rfl, runYears_amountB,
      List.getD_cons_succ, List.getD_cons_zero, mkYearData_p50, hm]
    rw [show (⟨List.replicate 5000 (⟨1000000, 1000000, 0, 0⟩ : PathCell),
        List.replicate 5000 1000000, 1, false, 0, 1000000, (60000:ℕ)⟩ : SimState).sortedVals =
        List.replicate 5000 1000000 from rfl]
    rw [getD_replicate (1000000:ℚ) 0 (by norm_num)]
    rw [show jsRound 1000000 = 1000000 from by
      unfold jsRound
      norm_num]
    norm_num
  refine ⟨hA, hB, ?_, rfl, ?_⟩
  · rw [sim_yearlyData, show totalYearsOf cfgBothA = 1 from rfl, runYears_amountA,
      List.getD_cons_succ, List.getD_cons_zero]
    apply mkYearData_mYW_none
    intro hc
    have : (mkCtx oracleOne cfgBothA).rate = false := rfl
    rw [this] at hc
    exact absurd hc.2 (by norm_num)
  · intro heq
    rw [heq] at hA
    rw [hA] at hB
    norm_num at hB

theorem withdrawalStep_taxFree_ok {net v b : ℚ} (hv : 0 < v) (hb : b ≤ v)
    (hnet : 0 ≤ net) :
    0 ≤ (withdrawalStep 0 net v b).1 ∧
    (withdrawalStep 0 net v b).2 ≤ (withdrawalStep 0 net v b).1 := by
  unfold withdrawalStep
  simp only [mul_zero, sub_zero]
  refine ⟨le_max_right _ _, ?_⟩
  by_cases hnv : net ≤ v
  · rw [min_eq_left ((div_le_one hv).mpr hnv)]
    have h1 : (0:ℚ) ≤ 1 - net / v := by
      have := (div_le_one hv).mpr hnv
      linarith
    have h2 : b * (1 - net / v) ≤ v * (1 - net / v) :=
      mul_le_mul_of_nonneg_right hb h1
    have h3 : v * (1 - net / v) = v - net := by
      rw [mul_sub, mul_one, mul_div_cancel₀ _ (ne_of_gt hv)]
    calc b * (1 - net / v) ≤ v * (1 - net / v) := h2
      _ = v - net := h3
      _ ≤ max (v - net) 0 := le_max_left _ _
  · rw [min_eq_right]
    · simp
    · rw [le_div_iff₀ hv]
      linarith

theorem pathStep_cellOK {O : Oracle} {cx : Ctx} (htax : cx.taxRate = 0)
    (hmc : 0 ≤ cx.mc)
    (hg : ∀ k, 1 ≤ O.expQ (cx.drift + cx.msig * O.gauss k)) (cb wb : Bool)
    (rdm cmw : ℚ) (k : ℕ) {p : PathCell} (hp : cellOK p) :
    cellOK (pathStep O cx cb wb rdm cmw k p) := by
  obtain ⟨hv, hb⟩ := hp
  have hvg : p.v ≤ p.v * O.expQ (cx.drift + cx.msig * O.gauss k) :=
    le_mul_of_one_le_right hv (hg k)
  unfold pathStep
  dsimp only
  set g := O.expQ (cx.drift + cx.msig * O.gauss k) with hgdef
  set v2 := if cb = true then p.v * g + cx.mc else p.v * g with hv2def
  set b2 := if cb = true then p.b + cx.mc else p.b with hb2def
  have hv2ge : 0 ≤ v2 ∧ b2 ≤ v2 := by
    cases cb
    · rw [hv2def, hb2def]
      simp only [Bool.false_eq_true, if_false]
      exact ⟨le_trans hv hvg, le_trans hb hvg⟩
    · rw [hv2def, hb2def]
      simp only [if_true]
      constructor
      · linarith
      · linarith
  by_cases hgd : wb = true ∧ 0 < v2
  · rw [if_pos hgd, htax]
    exact ⟨(withdrawalStep_taxFree_ok hgd.2 hv2ge.2 (le_max_right _ _)).1,
           (withdrawalStep_taxFree_ok hgd.2 hv2ge.2 (le_max_right _ _)).2⟩
  · rw [if_neg hgd]
    exact ⟨hv2ge.1, hv2ge.2⟩

theorem monthStep_cellOK {O : Oracle} {cx : Ctx} (htax : cx.taxRate = 0)
    (hmc : 0 ≤ cx.mc)
    (hg : ∀ k, 1 ≤ O.expQ (cx.drift + cx.msig * O.gauss k)) (cb wb : Bool)
    {s : SimState} (h : ∀ p ∈ s.cells, cellOK p) :
    ∀ p ∈ (monthStep O cx cb wb s).cells, cellOK p :=
  stepCells_forall (fun k p hp => pathStep_cellOK htax hmc hg cb wb _ _ k hp) h

theorem yearInit_cellOK {cx : Ctx} {s : SimState} (h : ∀ p ∈ s.cells, cellOK p) :
    ∀ p ∈ (yearInit cx s).cells, cellOK p := by
  unfold yearInit
  cases hr : cx.rate
  · simpa using h
  · simp only [if_pos rfl]
    intro p hp
    obtain ⟨q, hq, rfl⟩ := List.mem_map.mp hp
    exact h q hq

theorem runYears_cellOK {O : Oracle} {cx : Ctx} (htax : cx.taxRate = 0)
    (hmc : 0 ≤ cx.mc)
    (hg : ∀ k, 1 ≤ O.expQ (cx.drift + cx.msig * O.gauss k)) (n : ℕ) :
    ∀ (k y : ℕ) {s : SimState}, (∀ p ∈ s.cells, cellOK p) →
      ∀ p ∈ (runYears O cx n y k s).1.cells, cellOK p := by
  have hyear : ∀ (y : ℕ) {s : SimState}, (∀ p ∈ s.cells, cellOK p) →
      ∀ p ∈ (yearStep O cx y s).cells, cellOK p := by
    intro y s h
    have hiter : ∀ j : ℕ, ∀ p ∈ ((monthStep O cx (contribFlag cx y)
        (withdrawFlag cx y))^[j] (yearInit cx s)).cells, cellOK p := by
      intro j
      induction j with
      | zero => exact yearInit_cellOK h
      | succ j ih =>
        rw [Function.iterate_succ_apply']
        exact monthStep_cellOK htax hmc hg _ _ ih
    exact hiter 12
  intro k
  induction k with
  | zero => intro y s h; exact h
  | succ k ih => intro y s h; exact ih (y + 1) (hyear y h)

/-- C9 (amended): in tax-free mode, with nonnegative initial amount and
contributions and with every monthly growth factor at least 1, the cost
basis of every path never exceeds the path's value at any point of the
run; the original unconditional claim is false, since a month of negative
real growth pushes the value below the unchanged basis. -/
theorem claim9_basisLeValue (O : Oracle) (c : MonteCarloInput)
    (htax : c.taxFree = true) (hia : 0 ≤ c.initialAmount)
    (hmc : 0 ≤ c.monthlyContribution)
    (hg : ∀ k, 1 ≤ O.expQ ((mkCtx O c).drift + (mkCtx O c).msig * O.gauss k))
    (y m i : ℕ) :
    ((stateDuring O c y m).cells.getD i cell0).b ≤
      ((stateDuring O c y m).cells.getD i cell0).v := by
  have htax2 : (mkCtx O c).taxRate = 0 := by
    show (if c.taxFree then 0 else TAX_RATE) = 0
    rw [htax]
    rfl
  have hmc2 : 0 ≤ (mkCtx O c).mc := hmc
  have hinit : ∀ p ∈ (initState NUM_SIMULATIONS c).cells, cellOK p := by
    intro p hp
    have := List.eq_of_mem_replicate hp
    rw [this]
    exact ⟨hia, le_rfl⟩
  have hrun := runYears_cellOK htax2 hmc2 hg NUM_SIMULATIONS (y - 1) 1 hinit
  have hyinit := @yearInit_cellOK (mkCtx O c) _ hrun
  have hall : ∀ p ∈ (stateDuring O c y m).cells, cellOK p := by
    unfold stateDuring
    have hiter : ∀ j : ℕ, ∀ p ∈ ((monthStep O (mkCtx O c) (contribFlag (mkCtx O c) y)
        (withdrawFlag (mkCtx O c) y))^[j] (yearInit (mkCtx O c)
          (runYears O (mkCtx O c) NUM_SIMULATIONS 1 (y - 1)
            (initState NUM_SIMULATIONS c)).1)).cells, cellOK p := by
      intro j
      induction j with
      | zero => exact hyinit
      | succ j ih =>
        rw [Function.iterate_succ_apply']
        exact monthStep_cellOK htax2 hmc2 hg _ _ ih
    exact hiter m
  by_cases hi : i < (stateDuring O c y m).cells.length
  · have hmem : (stateDuring O c y m).cells.getD i cell0 ∈ (stateDuring O c y m).cells := by
      rw [List.getD_eq_getElem _ _ hi]
      exact List.getElem_mem hi
    exact (hall _ hmem).2
  · rw [List.getD_eq_default _ _ (le_of_not_lt hi)]
    exact le_rfl

/-- Witness for the amended C9: tax-free configuration, growth factor 1. -/
theorem claim9_basisLeValue_witness :
    ((stateDuring oracleOne cfgBothA 1 1).cells.getD 0 cell0).b ≤
      ((stateDuring oracleOne cfgBothA 1 1).cells.getD 0 cell0).v :=
  claim9_basisLeValue oracleOne cfgBothA rfl (by norm_num [cfgBothA])
    (by norm_num [cfgBothA]) (fun k => le_rfl) 1 1 0

/-- C9 counterexample: with annual return 0%, inflation 2% and zero
volatility (monthly growth factor `exp (-1/600)`, modelled by the nearby
rational `599/600`), after the very first simulated month every path's
cost basis (1000000) strictly exceeds its value (1000000 * 599/600):
the claimed invariant fails far beyond floating-point rounding. -/
theorem claim9_counterexample :
    ((stateDuring oracleLoss cfgLoss 1 1).cells.getD 0 cell0).v <
      ((stateDuring oracleLoss cfgLoss 1 1).cells.getD 0 cell0).b := by
  have hcells : (stateDuring oracleLoss cfgLoss 1 1).cells =
      List.replicate 5000 ⟨1000000 * (599/600) + 0, 1000000 + 0, 0, 0⟩ := by
    unfold stateDuring
    dsimp only
    rw [show (1:ℕ) - 1 = 0 from rfl]
    rw [show runYears oracleLoss (mkCtx oracleLoss cfgLoss) NUM_SIMULATIONS 1 0
        (initState NUM_SIMULATIONS cfgLoss) =
        (initState NUM_SIMULATIONS cfgLoss, []) from rfl]
    rw [show yearInit (mkCtx oracleLoss cfgLoss) (initState NUM_SIMULATIONS cfgLoss) =
        initState NUM_SIMULATIONS cfgLoss from rfl]
    rw [Function.iterate_one]
    rw [show contribFlag (mkCtx oracleLoss cfgLoss) 1 = true from rfl,
        show withdrawFlag (mkCtx oracleLoss cfgLoss) 1 = false from rfl]
    rw [show (monthStep oracleLoss (mkCtx oracleLoss cfgLoss) true false
        (initState NUM_SIMULATIONS cfgLoss)).cells =
        stepCells (pathStep oracleLoss (mkCtx oracleLoss cfgLoss) true false 1 0) 0
          (List.replicate 5000 ⟨1000000, 1000000, 0, 0⟩) from rfl]
    rw [stepCells_const (pathStep oracleLoss (mkCtx oracleLoss cfgLoss) true false 1 0)
        (fun k p => rfl) 5000 0 ⟨1000000, 1000000, 0, 0⟩]
    rfl
  rw [hcells, getD_replicate _ _ (by norm_num)]
  norm_num

theorem mkCtxD_drift (O : Oracle) : (mkCtx O cfgD).drift = 1/600 := by
  norm_num [mkCtx, cfgD]

theorem mkCtxD_msig (O : Oracle) : (mkCtx O cfgD).msig = 0 := by
  norm_num [mkCtx, cfgD]

theorem mkCtxD_deflator (O : Oracle) : (mkCtx O cfgD).deflator = defD O := by
  show (if isRateMode cfgD = true ∧ 0 < cfgD.inflationRate / 100 then
      1 / O.pow112 (1 + cfgD.inflationRate / 100) else 1) = defD O
  rw [if_pos ⟨rfl, by norm_num [cfgD]⟩]
  unfold defD
  norm_num [cfgD]

theorem pathStepD_kIndep (O : Oracle) (cb wb : Bool) (rdm cmw : ℚ)
    (k : ℕ) (p : PathCell) :
    pathStep O (mkCtx O cfgD) cb wb rdm cmw k p =
      pathStep O (mkCtx O cfgD) cb wb rdm cmw 0 p := by
  unfold pathStep
  rw [mkCtxD_msig]
  simp only [zero_mul]

theorem withdrawalStep_lower {net v b : ℚ} (hv : 0 < v) (hb : 0 ≤ b) (hnet : 0 ≤ net) :
    v - net * (1 + TAX_RATE) ≤ (withdrawalStep TAX_RATE net v b).1 ∧
    0 ≤ (withdrawalStep TAX_RATE net v b).2 := by
  unfold withdrawalStep
  constructor
  · have hgain1 : (if b < v then (v - b) / v else 0) ≤ 1 := by
      by_cases hbv : b < v
      · rw [if_pos hbv, div_le_one hv]
        linarith
      · rw [if_neg hbv]
        norm_num
    have hgain0 : 0 ≤ (if b < v then (v - b) / v else 0) := by
      by_cases hbv : b < v
      · rw [if_pos hbv]
        exact div_nonneg (by linarith) hv.le
      · rw [if_neg hbv]
    have h1 : net * (if b < v then (v - b) / v else 0) ≤ net * 1 :=
      mul_le_mul_of_nonneg_left hgain1 hnet
    have h2 : net * (if b < v then (v - b) / v else 0) * TAX_RATE ≤ net * 1 * TAX_RATE :=
      mul_le_mul_of_nonneg_right h1 (by norm_num [TAX_RATE])
    have h3 : v - net - net * (if b < v then (v - b) / v else 0) * TAX_RATE ≤
        max (v - net - net * (if b < v then (v - b) / v else 0) * TAX_RATE) 0 :=
      le_max_left _ _
    have h4 : v - net * (1 + TAX_RATE) =
        v - net - net * 1 * TAX_RATE := by ring
    linarith
  · have hmin1 : min (net / v) 1 ≤ 1 := min_le_right _ _
    apply mul_nonneg hb
    linarith

theorem pathStepD_locked (O : Oracle) (rdm : ℚ) (k : ℕ) (v b L t : ℚ)
    (hL : L ≠ 0) (hvg : 0 < v * O.expQ (1/600)) :
    pathStep O (mkCtx O cfgD) false true rdm 0 k ⟨v, b, L, t⟩ =
      ⟨(withdrawalStep TAX_RATE (max (L * rdm - 0) 0) (v * O.expQ (1/600)) b).1,
       (withdrawalStep TAX_RATE (max (L * rdm - 0) 0) (v * O.expQ (1/600)) b).2,
       L, t + max (L * rdm - 0) 0⟩ := by
  unfold pathStep withdrawalNet
  rw [mkCtxD_msig, mkCtxD_drift]
  simp only [zero_mul, add_zero, Bool.false_eq_true, if_false]
  rw [if_pos ⟨trivial, hvg⟩]
  rw [show (mkCtx O cfgD).rate = true from rfl]
  simp only [if_true]
  rw [if_neg hL]
  rw [show (mkCtx O cfgD).pension = 0 from rfl]
  rw [show (mkCtx O cfgD).taxRate = TAX_RATE from rfl]

theorem pathStepD_lock0 (O : Oracle) (k : ℕ) (b t : ℚ)
    (hvg : 0 < 10000000 * O.expQ (1/600)) :
    pathStep O (mkCtx O cfgD) false true 1 0 k ⟨10000000, b, 0, t⟩ =
      ⟨(withdrawalStep TAX_RATE (max (lockD O * 1 - 0) 0)
          (10000000 * O.expQ (1/600)) b).1,
       (withdrawalStep TAX_RATE (max (lockD O * 1 - 0) 0)
          (10000000 * O.expQ (1/600)) b).2,
       lockD O, t + max (lockD O * 1 - 0) 0⟩ := by
  unfold pathStep withdrawalNet
  rw [mkCtxD_msig, mkCtxD_drift]
  simp only [zero_mul, add_zero, Bool.false_eq_true, if_false]
  rw [if_pos ⟨trivial, hvg⟩]
  rw [show (mkCtx O cfgD).rate = true from rfl]
  simp only [if_true, if_pos rfl]
  rw [show (mkCtx O cfgD).awr = 4 from rfl]
  rw [show (mkCtx O cfgD).pension = 0 from rfl]
  rw [show (mkCtx O cfgD).taxRate = TAX_RATE from rfl]
  rw [show 10000000 * O.expQ (1/600) * 4 / 100 / 12 = lockD O from rfl]

theorem mkCtxD_rate (O : Oracle) : (mkCtx O cfgD).rate = true := rfl

theorem monthStepD_unfold (O : Oracle) (s : SimState) (h : s.started = true) :
    monthStep O (mkCtx O cfgD) false true s =
      ⟨stepCells (pathStep O (mkCtx O cfgD) false true (s.rdm * defD O) s.cmw)
         s.rng s.cells,
       s.sortedVals, s.rdm * defD O, true, s.cmw, s.tp, s.rng + s.cells.length⟩ := by
  unfold monthStep
  rw [mkCtxD_rate, h, mkCtxD_deflator]
  simp

theorem monthStepD {O : Oracle}
    (hG1 : 100166/100000 ≤ O.expQ (1/600)) (hG2 : O.expQ (1/600) ≤ 100167/100000)
    (hR1 : 100246/100000 ≤ O.pow112 (103/100))
    (hR2 : O.pow112 (103/100) ≤ 100247/100000)
    {m : ℕ} (hm : 1 ≤ m) {t : ℚ} {s : SimState} (h : DState O m t s) :
    DState O (m + 1) (t + lockD O * defD O ^ m)
      (monthStep O (mkCtx O cfgD) false true s) := by
  obtain ⟨v, b, hcells, hv, hb, hrdm, hstart, hcmw, htp⟩ := h
  have hRpos : (0:ℚ) < O.pow112 (103/100) := by linarith
  have hG0 : (0:ℚ) < O.expQ (1/600) := by linarith
  have hd0 : (0:ℚ) < defD O := by
    unfold defD
    exact div_pos one_pos hRpos
  have hdhi : defD O ≤ 100000/100246 := by
    unfold defD
    rw [div_le_div_iff hRpos (by norm_num)]
    linarith
  have hLeq : lockD O = 100000/3 * O.expQ (1/600) := by
    unfold lockD
    ring
  have hL0 : (0:ℚ) < lockD O := by
    rw [hLeq]
    exact mul_pos (by norm_num) hG0
  have hpow : defD O ^ (m - 1) * defD O = defD O ^ m := by
    rw [← pow_succ]
    congr 1
    omega
  have hdm0 : (0:ℚ) ≤ defD O ^ m := pow_nonneg hd0.le m
  have hnet0 : (0:ℚ) ≤ lockD O * defD O ^ m := mul_nonneg hL0.le hdm0
  have hnet : max (lockD O * defD O ^ m - 0) 0 = lockD O * defD O ^ m := by
    rw [sub_zero]
    exact max_eq_left hnet0
  have hvpos : (0:ℚ) < v := lt_of_lt_of_le (by positivity) hv
  have hvg : 0 < v * O.expQ (1/600) := mul_pos hvpos hG0
  obtain ⟨cs, sv, rdm0, st0, cm0, tp0, rn0⟩ := s
  simp only at hcells hrdm hstart hcmw htp
  subst hcells
  subst hrdm
  subst hstart
  subst hcmw
  subst htp
  refine ⟨(withdrawalStep TAX_RATE (lockD O * defD O ^ m) (v * O.expQ (1/600)) b).1,
          (withdrawalStep TAX_RATE (lockD O * defD O ^ m) (v * O.expQ (1/600)) b).2,
          ?_, ?_, ?_, ?_, ?_, ?_, ?_⟩
  · rw [monthStepD_unfold O _ rfl]
    dsimp only
    rw [stepCells_const (pathStep O (mkCtx O cfgD) false true (defD O ^ (m - 1) * defD O) 0)
        (fun k p => pathStepD_kIndep O false true _ _ k p) 5000 rn0 ⟨v, b, lockD O, t⟩]
    rw [pathStepD_locked O _ 0 v b (lockD O) t (ne_of_gt hL0) hvg]
    rw [hpow, hnet]
  · have hlow := (withdrawalStep_lower hvg hb hnet0).1
    have h1 : 9900000 * defD O ^ m * O.expQ (1/600) ≤ v * O.expQ (1/600) :=
      mul_le_mul_of_nonneg_right hv hG0.le
    have hτL : lockD O * defD O ^ m * (1 + TAX_RATE) =
        40105 * O.expQ (1/600) * defD O ^ m := by
      rw [hLeq]
      unfold TAX_RATE
      ring
    have hkey : 9900000 * defD O ≤ 9859895 * O.expQ (1/600) := by
      have k1 : 9900000 * defD O ≤ 9900000 * (100000/100246 : ℚ) :=
        mul_le_mul_of_nonneg_left hdhi (by norm_num)
      have k2 : (9859895:ℚ) * (100166/100000) ≤ 9859895 * O.expQ (1/600) :=
        mul_le_mul_of_nonneg_left hG1 (by norm_num)
      have k3 : (9900000:ℚ) * (100000/100246) ≤ 9859895 * (100166/100000) := by
        norm_num
      linarith
    have haux : 9900000 * defD O * defD O ^ m ≤
        9859895 * O.expQ (1/600) * defD O ^ m :=
      mul_le_mul_of_nonneg_right hkey hdm0
    have h4 : 9900000 * defD O ^ (m+1) = 9900000 * defD O * defD O ^ m := by
      rw [pow_succ]
      ring
    nlinarith [hlow, h1, hτL, haux, h4]
  · exact (withdrawalStep_lower hvg hb hnet0).2
  · rw [monthStepD_unfold O _ rfl]
    dsimp only
    rw [hpow]
    congr 1
  · rw [monthStepD_unfold O _ rfl]
  · rw [monthStepD_unfold O _ rfl]
  · rw [monthStepD_unfold O _ rfl]

theorem pctIndex_half : pctIndex NUM_SIMULATIONS (1/2) = 2500 := by
  norm_num [pctIndex, NUM_SIMULATIONS]
  rfl

theorem contribFlagD (O : Oracle) (y : ℕ) (h : 1 ≤ y) :
    contribFlag (mkCtx O cfgD) y = false := by
  unfold contribFlag
  rw [show (mkCtx O cfgD).cy = 0 from rfl]
  simp
  omega

theorem withdrawFlagD (O : Oracle) (y : ℕ) (h1 : 1 ≤ y) (h2 : y ≤ 20) :
    withdrawFlag (mkCtx O cfgD) y = true := by
  unfold withdrawFlag
  rw [show (mkCtx O cfgD).wsy = 0 from rfl, show (mkCtx O cfgD).wy = 20 from rfl]
  apply decide_eq_true
  omega

theorem DState_repack {O : Oracle} {m : ℕ} {t : ℚ} {s : SimState} (X : List ℚ)
    (h : DState O m t s) :
    DState O m t ⟨s.cells, X, s.rdm, s.started, s.cmw, s.tp, s.rng⟩ := by
  obtain ⟨v, b, h1, h2, h3, h4, h5, h6, h7⟩ := h
  exact ⟨v, b, h1, h2, h3, h4, h5, h6, h7⟩

theorem mYW_of_DState {O : Oracle} {m : ℕ} {t : ℚ} {s : SimState}
    (h : DState O m t s) {y : ℕ} (hw : withdrawFlag (mkCtx O cfgD) y = true) :
    (mkYearData NUM_SIMULATIONS (mkCtx O cfgD) y s).medianYearlyWithdrawal =
      some ((jsRound t : ℚ)) := by
  obtain ⟨v, b, hcells, _, _, _, _, _, _⟩ := h
  rw [mkYearData_mYW_some hw rfl]
  rw [hcells, List.map_replicate]
  rw [show PathCell.yw ⟨v, b, lockD O, t⟩ = t from rfl]
  rw [sortQ_replicate]
  rw [getD_replicate _ _ (by rw [pctIndex_half]; norm_num [NUM_SIMULATIONS])]

theorem monthsD {O : Oracle}
    (hG1 : 100166/100000 ≤ O.expQ (1/600)) (hG2 : O.expQ (1/600) ≤ 100167/100000)
    (hR1 : 100246/100000 ≤ O.pow112 (103/100))
    (hR2 : O.pow112 (103/100) ≤ 100247/100000) :
    ∀ (j m : ℕ), 1 ≤ m → ∀ {t : ℚ} {s : SimState}, DState O m t s →
      DState O (m + j) (t + lockD O * ∑ i ∈ Finset.range j, defD O ^ (m + i))
        ((monthStep O (mkCtx O cfgD) false true)^[j] s) := by
  intro j
  induction j with
  | zero =>
    intro m hm t s h
    simpa using h
  | succ j ih =>
    intro m hm t s h
    rw [Function.iterate_succ_apply]
    have h1 := monthStepD hG1 hG2 hR1 hR2 hm h
    have h2 := ih (m + 1) (by omega) h1
    have e2 : t + lockD O * defD O ^ m +
        lockD O * ∑ i ∈ Finset.range j, defD O ^ (m + 1 + i) =
        t + lockD O * ∑ i ∈ Finset.range (j + 1), defD O ^ (m + i) := by
      rw [Finset.sum_range_succ' (fun i => defD O ^ (m + i)) j]
      rw [Finset.sum_congr rfl
        (fun i _ => show defD O ^ (m + (i + 1)) = defD O ^ (m + 1 + i) from by
          congr 1
          omega)]
      rw [show m + 0 = m from rfl]
      ring
    rw [← e2, show m + (j + 1) = m + 1 + j from by omega]
    exact h2

theorem month0D {O : Oracle}
    (hG1 : 100166/100000 ≤ O.expQ (1/600)) (hG2 : O.expQ (1/600) ≤ 100167/100000)
    (hR1 : 100246/100000 ≤ O.pow112 (103/100))
    (hR2 : O.pow112 (103/100) ≤ 100247/100000) :
    DState O 1 (lockD O)
      (monthStep O (mkCtx O cfgD) false true
        (yearInit (mkCtx O cfgD) (initState NUM_SIMULATIONS cfgD))) := by
  have hRpos : (0:ℚ) < O.pow112 (103/100) := by linarith
  have hG0 : (0:ℚ) < O.expQ (1/600) := by linarith
  have hd0 : (0:ℚ) < defD O := by
    unfold defD
    exact div_pos one_pos hRpos
  have hdhi : defD O ≤ 100000/100246 := by
    unfold defD
    rw [div_le_div_iff hRpos (by norm_num)]
    linarith
  have hLeq : lockD O = 100000/3 * O.expQ (1/600) := by
    unfold lockD
    ring
  have hL0 : (0:ℚ) < lockD O := by
    rw [hLeq]
    exact mul_pos (by norm_num) hG0
  have hvg : (0:ℚ) < 10000000 * O.expQ (1/600) := mul_pos (by norm_num) hG0
  have hnet : max (lockD O * 1 - 0) 0 = lockD O := by
    rw [mul_one, sub_zero]
    exact max_eq_left hL0.le
  have hys : yearInit (mkCtx O cfgD) (initState NUM_SIMULATIONS cfgD) =
      ⟨List.replicate 5000 ⟨10000000, 10000000, 0, 0⟩, List.replicate 5000 0, 1, false,
       0, 10000000, 0⟩ := by
    unfold yearInit initState
    rw [if_pos (show (mkCtx O cfgD).rate = true from rfl)]
    rw [List.map_replicate]
    rfl
  rw [hys]
  refine ⟨(withdrawalStep TAX_RATE (lockD O) (10000000 * O.expQ (1/600)) 10000000).1,
          (withdrawalStep TAX_RATE (lockD O) (10000000 * O.expQ (1/600)) 10000000).2,
          ?_, ?_, ?_, ?_, ?_, ?_, ?_⟩
  · show stepCells (pathStep O (mkCtx O cfgD) false true 1 0) 0
        (List.replicate 5000 ⟨10000000, 10000000, 0, 0⟩) = _
    rw [stepCells_const _ (fun k p => pathStepD_kIndep O false true _ _ k p) 5000 0 _]
    rw [pathStepD_lock0 O 0 10000000 0 hvg]
    rw [hnet, zero_add]
  · have hlow := (withdrawalStep_lower hvg (show (0:ℚ) ≤ 10000000 by norm_num) hL0.le).1
    have hτL : lockD O * (1 + TAX_RATE) = 40105 * O.expQ (1/600) := by
      rw [hLeq]
      unfold TAX_RATE
      ring
    have hkey : 9900000 * defD O ≤ 9959895 * O.expQ (1/600) := by
      have k1 : 9900000 * defD O ≤ 9900000 * (100000/100246 : ℚ) :=
        mul_le_mul_of_nonneg_left hdhi (by norm_num)
      have k2 : (9959895:ℚ) * (100166/100000) ≤ 9959895 * O.expQ (1/600) :=
        mul_le_mul_of_nonneg_left hG1 (by norm_num)
      have k3 : (9900000:ℚ) * (100000/100246) ≤ 9959895 * (100166/100000) := by
        norm_num
      linarith
    have hp1 : defD O ^ 1 = defD O := pow_one _
    rw [hp1]
    nlinarith [hlow, hτL, hkey]
  · exact (withdrawalStep_lower hvg (show (0:ℚ) ≤ 10000000 by norm_num) hL0.le).2
  · show (1:ℚ) = defD O ^ (1 - 1)
    norm_num
  · rfl
  · rfl
  · rfl

theorem yearStep1D {O : Oracle}
    (hG1 : 100166/100000 ≤ O.expQ (1/600)) (hG2 : O.expQ (1/600) ≤ 100167/100000)
    (hR1 : 100246/100000 ≤ O.pow112 (103/100))
    (hR2 : O.pow112 (103/100) ≤ 100247/100000) :
    DState O 12 (totD O 1)
      (yearStep O (mkCtx O cfgD) 1 (initState NUM_SIMULATIONS cfgD)) := by
  unfold yearStep
  rw [contribFlagD O 1 le_rfl, withdrawFlagD O 1 le_rfl (by norm_num)]
  rw [show (12:ℕ) = 11 + 1 from rfl, Function.iterate_succ_apply]
  have h0 := month0D hG1 hG2 hR1 hR2
  have h1 := monthsD hG1 hG2 hR1 hR2 11 1 le_rfl h0
  have e : lockD O + lockD O * ∑ i ∈ Finset.range 11, defD O ^ (1 + i) = totD O 1 := by
    unfold totD geomD
    rw [show 12 * (1 - 1) = 0 from rfl, pow_zero]
    rw [Finset.sum_range_succ' (fun i => defD O ^ i) 11]
    rw [Finset.sum_congr rfl
      (fun i _ => show defD O ^ (i + 1) = defD O ^ (1 + i) from by
        congr 1
        omega)]
    rw [pow_zero]
    ring
  rw [e] at h1
  exact DState_repack _ h1

theorem yearStepD {O : Oracle}
    (hG1 : 100166/100000 ≤ O.expQ (1/600)) (hG2 : O.expQ (1/600) ≤ 100167/100000)
    (hR1 : 100246/100000 ≤ O.pow112 (103/100))
    (hR2 : O.pow112 (103/100) ≤ 100247/100000)
    {y : ℕ} (hy : 2 ≤ y) (h20 : y ≤ 20) {t : ℚ} {s : SimState}
    (hs : DState O (12 * (y - 1)) t s) :
    DState O (12 * y) (totD O y) (yearStep O (mkCtx O cfgD) y s) := by
  unfold yearStep
  rw [contribFlagD O y (by omega), withdrawFlagD O y (by omega) h20]
  have hyi : DState O (12 * (y - 1)) 0 (yearInit (mkCtx O cfgD) s) := by
    obtain ⟨v, b, hcells, i2, i3, i4, i5, i6, i7⟩ := hs
    unfold yearInit
    rw [if_pos (show (mkCtx O cfgD).rate = true from rfl)]
    refine ⟨v, b, ?_, i2, i3, i4, i5, i6, i7⟩
    show s.cells.map _ = _
    rw [hcells, List.map_replicate]
  have h12 := monthsD hG1 hG2 hR1 hR2 12 (12 * (y - 1)) (by omega) hyi
  have e1 : 12 * (y - 1) + 12 = 12 * y := by omega
  have e2 : 0 + lockD O * ∑ i ∈ Finset.range 12, defD O ^ (12 * (y - 1) + i) =
      totD O y := by
    unfold totD geomD
    rw [zero_add]
    rw [Finset.sum_congr rfl (fun i _ => pow_add (defD O) (12 * (y - 1)) i)]
    rw [← Finset.mul_sum]
    ring
  rw [e1, e2] at h12
  exact DState_repack _ h12

theorem runYearsD {O : Oracle}
    (hG1 : 100166/100000 ≤ O.expQ (1/600)) (hG2 : O.expQ (1/600) ≤ 100167/100000)
    (hR1 : 100246/100000 ≤ O.pow112 (103/100))
    (hR2 : O.pow112 (103/100) ≤ 100247/100000) :
    ∀ (k y : ℕ), 2 ≤ y → y + k ≤ 21 → ∀ {t : ℚ} {s : SimState},
      DState O (12 * (y - 1)) t s →
      ∀ j, j < k →
        ((runYears O (mkCtx O cfgD) NUM_SIMULATIONS y k s).2.getD j
          yd0).medianYearlyWithdrawal = some ((jsRound (totD O (y + j)) : ℚ)) := by
  intro k
  induction k with
  | zero =>
    intro y _ _ t s _ j hj
    omega
  | succ k ih =>
    intro y hy2 hyk t s hs j hj
    have hstep := yearStepD hG1 hG2 hR1 hR2 hy2 (by omega) hs
    cases j with
    | zero =>
      show (mkYearData NUM_SIMULATIONS (mkCtx O cfgD) y
        (yearStep O (mkCtx O cfgD) y s)).medianYearlyWithdrawal = _
      rw [mYW_of_DState hstep (withdrawFlagD O y (by omega) (by omega))]
      rw [show y + 0 = y from rfl]
    | succ j =>
      have hnext : DState O (12 * (y + 1 - 1)) (totD O y)
          (yearStep O (mkCtx O cfgD) y s) := by
        rw [show y + 1 - 1 = y from rfl]
        exact hstep
      have := ih (y + 1) (by omega) (by omega) hnext j (by omega)
      rw [show y + 1 + j = y + (j + 1) from by omega] at this
      exact this

theorem mYWD {O : Oracle}
    (hG1 : 100166/100000 ≤ O.expQ (1/600)) (hG2 : O.expQ (1/600) ≤ 100167/100000)
    (hR1 : 100246/100000 ≤ O.pow112 (103/100))
    (hR2 : O.pow112 (103/100) ≤ 100247/100000)
    (z : ℕ) (hz1 : 1 ≤ z) (hz2 : z ≤ 20) :
    ((simulateMonteCarlo O cfgD).yearlyData.getD z yd0).medianYearlyWithdrawal =
      some ((jsRound (totD O z) : ℚ)) := by
  rw [sim_yearlyData, show totalYearsOf cfgD = 20 from rfl]
  obtain ⟨j, rfl⟩ : ∃ j, z = j + 1 := ⟨z - 1, by omega⟩
  rw [List.getD_cons_succ]
  have hexpand : (runYears O (mkCtx O cfgD) NUM_SIMULATIONS 1 20
      (initState NUM_SIMULATIONS cfgD)).2 =
      mkYearData NUM_SIMULATIONS (mkCtx O cfgD) 1
        (yearStep O (mkCtx O cfgD) 1 (initState NUM_SIMULATIONS cfgD)) ::
      (runYears O (mkCtx O cfgD) NUM_SIMULATIONS 2 19
        (yearStep O (mkCtx O cfgD) 1 (initState NUM_SIMULATIONS cfgD))).2 := rfl
  rw [hexpand]
  have h1 := yearStep1D hG1 hG2 hR1 hR2
  cases j with
  | zero =>
    rw [List.getD_cons_zero]
    rw [mYW_of_DState h1 (withdrawFlagD O 1 le_rfl (by norm_num))]
  | succ j =>
    rw [List.getD_cons_succ]
    have hD : DState O (12 * (2 - 1)) (totD O 1)
        (yearStep O (mkCtx O cfgD) 1 (initState NUM_SIMULATIONS cfgD)) := by
      rw [show 12 * (2 - 1) = 12 from rfl]
      exact h1
    have := runYearsD hG1 hG2 hR1 hR2 19 2 le_rfl (by norm_num) hD j (by omega)
    rw [show (2:ℕ) + j = j + 1 + 1 from by omega] at this
    exact this

/-- C8: for Scenario D (`initialAmount = 10^7`, `annualReturnRate = 5`,
`annualWithdrawalRate = 4`, `inflationRate = 3`, `volatility = 0`,
`contributionYears = 0`, `withdrawalStartYear = 0`, `withdrawalYears = 20`),
the reported `medianYearlyWithdrawal` strictly decreases from each
withdrawing year to the next, hence from the first withdrawing snapshot to
the last.  The oracle hypotheses are intervals that the true transcendental
values satisfy: `Math.exp (1/600) = 1.00166805...` and
`Math.pow 1.03 (1/12) = 1.00246627...`. -/
theorem claim8_medianDecreases (O : Oracle)
    (hG1 : 100166/100000 ≤ O.expQ (1/600)) (hG2 : O.expQ (1/600) ≤ 100167/100000)
    (hR1 : 100246/100000 ≤ O.pow112 (103/100))
    (hR2 : O.pow112 (103/100) ≤ 100247/100000)
    (y : ℕ) (h1 : 1 ≤ y) (h2 : y ≤ 19) :
    ∃ a b : ℚ,
      ((simulateMonteCarlo O cfgD).yearlyData.getD y yd0).medianYearlyWithdrawal =
        some a ∧
      ((simulateMonteCarlo O cfgD).yearlyData.getD (y + 1)
        yd0).medianYearlyWithdrawal = some b ∧
      b < a := by
  have hRpos : (0:ℚ) < O.pow112 (103/100) := by linarith
  have hG0 : (0:ℚ) < O.expQ (1/600) := by linarith
  have hd0 : (0:ℚ) < defD O := by
    unfold defD
    exact div_pos one_pos hRpos
  have hdhi : defD O ≤ 100000/100246 := by
    unfold defD
    rw [div_le_div_iff hRpos (by norm_num)]
    linarith
  have hdlo : (100000/100247 : ℚ) ≤ defD O := by
    unfold defD
    rw [div_le_div_iff (by norm_num) hRpos]
    linarith
  have hd1 : defD O ≤ 1 := by
    unfold defD
    rw [div_le_one hRpos]
    linarith
  have hLeq : lockD O = 100000/3 * O.expQ (1/600) := by
    unfold lockD
    ring
  have hL0 : (0:ℚ) < lockD O := by
    rw [hLeq]
    exact mul_pos (by norm_num) hG0
  refine ⟨(jsRound (totD O y) : ℚ), (jsRound (totD O (y + 1)) : ℚ),
    mYWD hG1 hG2 hR1 hR2 y h1 (by omega),
    mYWD hG1 hG2 hR1 hR2 (y + 1) (by omega) (by omega), ?_⟩
  have hgap : totD O (y + 1) + 1 ≤ totD O y := by
    have e : totD O y - totD O (y + 1) =
        lockD O * geomD O * defD O ^ (12 * (y - 1)) * (1 - defD O ^ 12) := by
      unfold totD
      rw [show 12 * (y + 1 - 1) = 12 * (y - 1) + 12 from by omega, pow_add]
      ring
    have f1 : (100166/3 : ℚ) ≤ lockD O := by
      rw [hLeq]
      nlinarith [hG1]
    have f2 : (1:ℚ) ≤ geomD O := by
      unfold geomD
      have h0 := Finset.single_le_sum (f := fun i => defD O ^ i)
        (fun i _ => pow_nonneg hd0.le i) (Finset.mem_range.mpr (by norm_num : (0:ℕ) < 12))
      simpa using h0
    have f3 : (1/2 : ℚ) ≤ defD O ^ (12 * (y - 1)) := by
      have s1 : defD O ^ 216 ≤ defD O ^ (12 * (y - 1)) :=
        pow_le_pow_of_le_one hd0.le hd1 (by omega)
      have s2 : (100000/100247 : ℚ) ^ 216 ≤ defD O ^ 216 :=
        pow_le_pow_left (by norm_num) hdlo 216
      have s3 : (1/2 : ℚ) ≤ (100000/100247 : ℚ) ^ 216 := by norm_num
      linarith
    have f4 : (2/100 : ℚ) ≤ 1 - defD O ^ 12 := by
      have s1 : defD O ^ 12 ≤ (100000/100246 : ℚ) ^ 12 :=
        pow_le_pow_left hd0.le hdhi 12
      have s2 : (100000/100246 : ℚ) ^ 12 ≤ 98/100 := by norm_num
      linarith
    have n1 : (0:ℚ) ≤ lockD O * geomD O :=
      mul_nonneg hL0.le (by linarith)
    have g1 : (100166/3 : ℚ) * 1 ≤ lockD O * geomD O :=
      mul_le_mul f1 f2 (by norm_num) hL0.le
    have n2 : (0:ℚ) ≤ lockD O * geomD O * defD O ^ (12 * (y - 1)) :=
      mul_nonneg n1 (pow_nonneg hd0.le _)
    have g2 : (100166/3 : ℚ) * 1 * (1/2) ≤
        lockD O * geomD O * defD O ^ (12 * (y - 1)) :=
      mul_le_mul g1 f3 (by norm_num) n1
    have g3 : (100166/3 : ℚ) * 1 * (1/2) * (2/100) ≤
        lockD O * geomD O * defD O ^ (12 * (y - 1)) * (1 - defD O ^ 12) :=
      mul_le_mul g2 f4 (by norm_num) n2
    have g4 : (1:ℚ) ≤ (100166/3 : ℚ) * 1 * (1/2) * (2/100) := by norm_num
    linarith
  exact_mod_cast jsRound_lt hgap

/-- Witness for C8: the concrete rational oracle `oracleD` satisfies the
interval hypotheses, at the first withdrawing-year pair. -/
theorem claim8_medianDecreases_witness :
    ∃ a b : ℚ,
      ((simulateMonteCarlo oracleD cfgD).yearlyData.getD 1
        yd0).medianYearlyWithdrawal = some a ∧
      ((simulateMonteCarlo oracleD cfgD).yearlyData.getD 2
        yd0).medianYearlyWithdrawal = some b ∧
      b < a :=
  claim8_medianDecreases oracleD (by norm_num [oracleD]) (by norm_num [oracleD])
    (by norm_num [oracleD]) (by norm_num [oracleD]) 1 le_rfl (by norm_num)

end MC
